import Mathlib

/-!
Verification development for the Control-Centre digital-twin core:
a shallow embedding, over the real numbers, of the grid environment,
the Theta*-style path planner with clearance line-of-sight, the
differential-drive rover kinematics, the command-queue executor and
the hypothesis-testing robustness harness, together with theorems
settling the behavioural claims about them.

Floating-point arithmetic in the source is modelled by exact real
arithmetic (the project documents behaviour, not floating-point bits).
Python exceptions are modelled by `Option`: `none` is an uncaught
exception, `some v` a normal return.  Calls to the random number
generator are modelled by passing the drawn noise values explicitly.
-/

namespace ControlCentre

/-! ## Constants (digital_twin/constants.py) -/

noncomputable def DISTANCE_BETWEEN_MOTORS : ℝ := 0.088 + 0.014

noncomputable def WHEEL_CIRCUMFERENCE : ℝ := 0.276

noncomputable def TIME_BETWEEN_MOVEMENTS : ℝ := 0.001

noncomputable def METERS_PER_TILE : ℝ := 0.01

noncomputable def ROVER_MAX_SPEED : ℝ := 1

/-! ## maths_helper.py -/

/-- `convert_angle_to_2d_vector` from maths_helper.py: the unit vector of an
angle, with components of magnitude below `1e-10` snapped to `0`. -/
noncomputable def convert_angle_to_2d_vector (angle : ℝ) : ℝ × ℝ :=
  (if |Real.cos angle| < 1e-10 then 0 else Real.cos angle,
   if |Real.sin angle| < 1e-10 then 0 else Real.sin angle)

/-- `np.arctan2 y x` as defined by numpy, in terms of `Real.arctan`. -/
noncomputable def arctan2 (y x : ℝ) : ℝ :=
  if 0 < x then Real.arctan (y / x)
  else if x < 0 then
    (if 0 ≤ y then Real.arctan (y / x) + Real.pi
     else Real.arctan (y / x) - Real.pi)
  else
    (if 0 < y then Real.pi / 2 else if y < 0 then -(Real.pi / 2) else 0)

/-- `get_angle_from_vectors` from maths_helper.py: signed angle between two
vectors, snapped to `0` when `|θ| ≤ 1e-5`. -/
noncomputable def get_angle_from_vectors (v1 v2 : ℝ × ℝ) : ℝ :=
  let y := v1.1 * v2.2 - v1.2 * v2.1
  let x := v1.1 * v2.1 + v1.2 * v2.2
  let theta := -arctan2 y x
  if |theta| ≤ 1e-5 then 0 else theta

/-! ## rover_rpm_instructions.py -/

/-- `angle_from_motor_speed` from rover_rpm_instructions.py. -/
noncomputable def angle_from_motor_speed (motor1_speed motor2_speed : ℝ)
    (time : ℝ := TIME_BETWEEN_MOVEMENTS) : ℝ :=
  time * (motor1_speed - motor2_speed) / DISTANCE_BETWEEN_MOTORS

/-- `get_rpm_for_still_rotation` from rover_rpm_instructions.py. -/
noncomputable def get_rpm_for_still_rotation (angle time : ℝ) : ℝ :=
  angle * DISTANCE_BETWEEN_MOTORS / (2 * time)

/-! ## rover.py

The `Rover` state.  `numpy.random.normal` draws are modelled by explicit
noise arguments `n1 n2`; the source consults them only when
`motor_stdev > 0`. -/

structure Rover where
  x : ℝ
  y : ℝ
  direction : ℝ
  motor_stdev : ℝ

/-- `Rover.motor_move`: heading is updated from the (possibly noisy) wheel
speeds, then the forward distance — computed from the arguments
`motor1_speed`/`motor2_speed` as in the source — is applied along the new
heading. -/
noncomputable def Rover.motor_move (r : Rover) (motor1_speed motor2_speed : ℝ)
    (n1 n2 : ℝ) (time : ℝ := TIME_BETWEEN_MOVEMENTS) : Rover :=
  let motor1_speed_adj := if r.motor_stdev > 0 then motor1_speed + n1 else motor1_speed
  let motor2_speed_adj := if r.motor_stdev > 0 then motor2_speed + n2 else motor2_speed
  let angle_change := angle_from_motor_speed motor1_speed_adj motor2_speed_adj
  let distance := (motor1_speed + motor2_speed) * time
  let direction := r.direction + angle_change
  let d := convert_angle_to_2d_vector direction
  { r with
    direction := direction
    x := r.x + distance * d.1
    y := r.y + distance * d.2 }

/-- `Rover.rotate`. -/
noncomputable def Rover.rotate (r : Rover) (angle : ℝ) (n1 n2 : ℝ) : Rover :=
  let abs_motor_speeds := get_rpm_for_still_rotation angle TIME_BETWEEN_MOVEMENTS
  r.motor_move abs_motor_speeds (-abs_motor_speeds) n1 n2

/-- `Rover.move`. -/
noncomputable def Rover.move (r : Rover) (distance : ℝ) (n1 n2 : ℝ) : Rover :=
  let motor_speed := (distance / TIME_BETWEEN_MOVEMENTS) / 2
  r.motor_move motor_speed motor_speed n1 n2

/-- Modelled from the spec: `Rover.set_angle` is called by
`RoverCommands.update` and by the GUI but is not defined anywhere in the
repository snapshot; per the spec a SetHeading command is applied
instantaneously, so it assigns the heading directly. -/
def Rover.set_angle (r : Rover) (angle : ℝ) : Rover :=
  { r with direction := angle }

/-- Modelled from the spec: `Rover.set_position` is likewise only called,
never defined; per the spec a SetPosition command applies instantaneously. -/
def Rover.set_position (r : Rover) (p : ℝ × ℝ) : Rover :=
  { r with x := p.1, y := p.2 }

/-! ## environment.py — data model -/

/-- `EnvType` from environment.py (colour payloads dropped: only the tag is
ever compared). -/
inductive EnvType where
  | EMPTY
  | OBSTACLE
  | EXPLORED
  | START
  | END
  deriving DecidableEq, Repr

/-- A grid cell, addressed `(x, y)`. -/
abbrev Cell := ℤ × ℤ

/-- Python list indexing `l[i]`: indices in `[0, len)` read directly,
indices in `[-len, 0)` wrap from the back, anything else raises
`IndexError` (modelled as `none`). -/
def pyGet (l : List α) (i : ℤ) : Option α :=
  if 0 ≤ i ∧ i < l.length then l[i.toNat]?
  else if -(l.length : ℤ) ≤ i ∧ i < 0 then l[((l.length : ℤ) + i).toNat]?
  else none

/-- Python list item assignment `l[i] = a`, with the same index semantics
as `pyGet`. -/
def pySet (l : List α) (i : ℤ) (a : α) : Option (List α) :=
  if 0 ≤ i ∧ i < l.length then some (l.set i.toNat a)
  else if -(l.length : ℤ) ≤ i ∧ i < 0 then some (l.set (l.length + i).toNat a)
  else none

/-- The `Environment` state (environment.py).  `_end` is named `endCells`
because `end` is reserved in Lean. -/
structure Environment where
  map : List (List EnvType)
  rover : Option Rover
  start : Option Cell
  endCells : Option (List Cell)
  start_dir : ℝ
  end_dir : ℝ
  path : Option (List Cell)

/-- `Environment.__init__`. -/
noncomputable def Environment.init (width height : ℕ) : Environment :=
  { map := List.replicate height (List.replicate width EnvType.EMPTY)
    rover := none, start := none, endCells := none
    start_dir := 0, end_dir := 0, path := none }

/-- `Environment.set_start_end` (the commented-out tile writes in the source
do nothing). -/
def Environment.set_start_end (env : Environment) (start : Option Cell)
    (endCells : Option (List Cell)) : Environment :=
  { env with start := start, endCells := endCells }

/-- `Environment.set_tile`: writes `self._map[y][x]`, so it inherits
Python's indexing (negative wrap, `IndexError` out of range). -/
def Environment.set_tile (env : Environment) (x y : ℤ) (env_type : EnvType) :
    Option Environment :=
  (pyGet env.map y).bind fun row =>
    (pySet row x env_type).bind fun row' =>
      (pySet env.map y row').map fun map' => { env with map := map' }

/-- `Environment.get_tile`: reads `self._map[y][x]` with Python indexing;
`none` models the `IndexError` escape. -/
def Environment.get_tile (env : Environment) (x y : ℤ) : Option EnvType :=
  (pyGet env.map y).bind fun row => pyGet row x

/-- `Environment.size`, `(width, height)`. -/
def Environment.size (env : Environment) : ℕ × ℕ :=
  ((env.map.headD []).length, env.map.length)

/-- `Environment.get_start_end`. -/
def Environment.get_start_end (env : Environment) :
    Option Cell × Option (List Cell) :=
  (env.start, env.endCells)

/-- `Environment.reset_path`. -/
def Environment.reset_path (env : Environment) : Environment :=
  { env with path := none }

/-- A rectangular grid: `H` rows of width `W`, as built by
`Environment.init` and preserved by `set_tile`. -/
def wellFormed (env : Environment) (W H : ℕ) : Prop :=
  env.map.length = H ∧ ∀ row ∈ env.map, row.length = W

/-! ### Claim C4 — `get_tile` out-of-bounds behaviour -/

theorem pyGet_isSome {α : Type _} (l : List α) (i : ℤ) :
    (pyGet l i).isSome ↔ -(l.length : ℤ) ≤ i ∧ i < l.length := by
  unfold pyGet
  have hsome : ∀ n : ℕ, (l[n]?).isSome ↔ n < l.length := by
    intro n
    rw [Option.isSome_iff_ne_none, ne_eq, List.getElem?_eq_none_iff]
    omega
  by_cases h1 : 0 ≤ i ∧ i < l.length
  · rw [if_pos h1, hsome]
    omega
  · rw [if_neg h1]
    by_cases h2 : -(l.length : ℤ) ≤ i ∧ i < 0
    · rw [if_pos h2, hsome]
      omega
    · rw [if_neg h2]
      simp only [Option.isSome_none, Bool.false_eq_true, false_iff]
      omega

theorem pyGet_mem {α : Type _} {l : List α} {i : ℤ} {a : α}
    (h : pyGet l i = some a) : a ∈ l := by
  unfold pyGet at h
  split_ifs at h
  · exact List.getElem?_mem h
  · exact List.getElem?_mem h

/-- Claim C4, as stated: `get_tile` fails on every index outside
`[0,width) × [0,height)`.  Refuted below: Python's negative indexing makes
indices in `[-width,0)`/`[-height,0)` wrap around silently. -/
def C4_claim : Prop :=
  ∀ (env : Environment) (W H : ℕ) (x y : ℤ), wellFormed env W H →
    (x < 0 ∨ (W : ℤ) ≤ x ∨ y < 0 ∨ (H : ℤ) ≤ y) →
    env.get_tile x y = none

/-- The 1×2 grid `[[EMPTY, OBSTACLE]]` used as the C4/C3 counterexample
environment. -/
def envC4 : Environment :=
  { map := [[EnvType.EMPTY, EnvType.OBSTACLE]]
    rover := none, start := none, endCells := none
    start_dir := 0, end_dir := 0, path := none }

/-- Counterexample to C4: on a 2-wide grid, `get_tile (-1) 0` silently
returns the last tile of row 0 instead of failing, although `-1` lies
outside `[0, width)`. -/
theorem C4_counterexample : ¬ C4_claim := by
  intro h
  have hwf : wellFormed envC4 2 1 := by
    constructor
    · rfl
    · intro row hrow
      simp only [envC4, List.mem_singleton] at hrow
      simp [hrow]
  have := h envC4 2 1 (-1) 0 hwf (Or.inl (by norm_num))
  simp [envC4, Environment.get_tile, pyGet] at this

/-- On a rectangular grid, `get_tile x y` succeeds exactly when `x` and `y`
lie in the relaxed Python index range (`[-width, width)` resp.
`[-height, height)`). -/
theorem get_tile_isSome_iff (env : Environment) (W H : ℕ) (x y : ℤ)
    (hwf : wellFormed env W H) :
    ((env.get_tile x y).isSome ↔
      (-(W : ℤ) ≤ x ∧ x < W ∧ -(H : ℤ) ≤ y ∧ y < H)) := by
  obtain ⟨hlen, hrows⟩ := hwf
  unfold Environment.get_tile
  by_cases hy : -(H : ℤ) ≤ y ∧ y < H
  · have hy' : (pyGet env.map y).isSome := by
      rw [pyGet_isSome, hlen]; exact hy
    obtain ⟨row, hrow⟩ := Option.isSome_iff_exists.mp hy'
    have hrlen : row.length = W := hrows row (pyGet_mem hrow)
    rw [hrow, Option.some_bind, pyGet_isSome, hrlen]
    constructor
    · rintro ⟨h1, h2⟩; exact ⟨h1, h2, hy.1, hy.2⟩
    · rintro ⟨h1, h2, _, _⟩; exact ⟨h1, h2⟩
  · have hy' : pyGet env.map y = none := by
      have h := pyGet_isSome env.map y
      rw [hlen] at h
      rcases hnone : pyGet env.map y with _ | v
      · rfl
      · exact absurd (h.mp (by simp [hnone])) hy
    rw [hy', Option.none_bind]
    simp only [Option.isSome_none, Bool.false_eq_true, false_iff]
    intro hcon
    exact hy ⟨hcon.2.2.1, hcon.2.2.2⟩

/-- Amended C4: `get_tile x y` fails exactly when `x` or `y` lies outside
the relaxed Python range (`[-width, width)` resp. `[-height, height)`);
negative indices inside that range silently return the wrapped tile, as
witnessed by `get_tile (-1) 0 = some OBSTACLE` on `envC4`. -/
theorem C4_amended (env : Environment) (W H : ℕ) (x y : ℤ)
    (hwf : wellFormed env W H) :
    ((env.get_tile x y).isSome ↔
      (-(W : ℤ) ≤ x ∧ x < W ∧ -(H : ℤ) ≤ y ∧ y < H)) :=
  get_tile_isSome_iff env W H x y hwf

/-- Witness for the amended C4 at a concrete input: on `envC4`,
`get_tile (-1) 0` succeeds (wrapping) while `get_tile (-3) 0` fails. -/
theorem C4_amended_witness :
    ((envC4.get_tile (-1) 0).isSome ↔
      (-(2 : ℤ) ≤ (-1 : ℤ) ∧ (-1 : ℤ) < 2 ∧ -(1 : ℤ) ≤ 0 ∧ (0 : ℤ) < 1)) ∧
    envC4.get_tile (-1) 0 = some EnvType.OBSTACLE := by
  constructor
  · exact C4_amended envC4 2 1 (-1) 0
      (by constructor
          · rfl
          · intro row hrow
            simp only [envC4, List.mem_singleton] at hrow
            simp [hrow])
  · decide

/-! ## rover_commands.py — the command queue executor

Command values are either a number or a Python tuple (modelled as a list
of reals).  The source stores the command type as `float(type.value)` and
recovers it with `ROVER_TYPES[int(...)]`, an exact round-trip on the six
command kinds, so the type is stored directly here. -/

inductive RoverCommandType where
  | MOVE
  | ROTATE
  | RPMS
  | SET_POSITION
  | SET_ANGLE
  | MINE
  deriving DecidableEq, Repr

inductive CmdVal where
  | num (v : ℝ)
  | tup (xs : List ℝ)

/-- A queued command `(command_type, value, time)`. -/
abbrev Cmd := RoverCommandType × CmdVal × ℝ

structure RoverCommands where
  command_queue : List Cmd
  current_command : Option Cmd

/-- `RoverCommands.__init__`. -/
def RoverCommands.init : RoverCommands := ⟨[], none⟩

/-- `RoverCommands.is_empty`. -/
def RoverCommands.is_empty (rc : RoverCommands) : Bool :=
  rc.command_queue.isEmpty && rc.current_command.isNone

/-- `RoverCommands.add_command`: numeric values of every kind except
ROTATE are rescaled by `TIME_BETWEEN_MOVEMENTS / time` on enqueue. -/
noncomputable def RoverCommands.add_command (rc : RoverCommands)
    (command_type : RoverCommandType) (value : CmdVal) (time : ℝ) :
    RoverCommands :=
  let val : CmdVal :=
    match value with
    | .num v =>
        if command_type ≠ RoverCommandType.ROTATE then
          .num (v * TIME_BETWEEN_MOVEMENTS / time)
        else .num v
    | .tup xs => .tup xs
  { rc with command_queue := rc.command_queue ++ [(command_type, val, time)] }

/-- `RoverCommands._check_command`: replace an absent or exhausted current
command by the head of the queue, if any (console printing dropped). -/
noncomputable def RoverCommands.check_command (rc : RoverCommands) : RoverCommands :=
  if rc.current_command.isNone ∨ ∃ c, rc.current_command = some c ∧ c.2.2 ≤ 0 then
    match rc.command_queue with
    | [] => { command_queue := [], current_command := none }
    | c :: rest => { command_queue := rest, current_command := some c }
  else rc

/-- `RoverCommands.update`: refresh the current command, apply it to the
rover for one tick, then decrement its remaining time.  `none` models an
uncaught Python error (malformed tuple payloads, or `rover.move` applied to
a tuple).  The `np.isnan` guard of the source can never fire over exact
reals and is dropped.  The ROTATE and SET_ANGLE/SET_POSITION branches call
the spec-modelled `Rover.set_angle`/`Rover.set_position` (missing from the
repository snapshot, see their doc comments). -/
noncomputable def RoverCommands.update (rc : RoverCommands) (rover : Rover)
    (n1 n2 : ℝ) : Option (RoverCommands × Rover) :=
  let rc' := rc.check_command
  match rc'.current_command with
  | none => some (rc', rover)
  | some (command_type, value, time_units_left) =>
      let applied : Option Rover :=
        match command_type, value with
        | .MOVE, .num v => some (rover.move v n1 n2)
        | .MOVE, .tup _ => none
        | .ROTATE, .num v => some (rover.set_angle v)
        | .ROTATE, .tup _ => none
        | .RPMS, .tup [m1, m2] => some (rover.motor_move m1 m2 n1 n2)
        | .RPMS, _ => none
        | .SET_POSITION, .tup [a, b] => some (rover.set_position (a, b))
        | .SET_POSITION, _ => none
        | .SET_ANGLE, .tup (a :: _) => some (rover.set_angle a)
        | .SET_ANGLE, _ => none
        | .MINE, _ => some rover
      applied.map fun rover' =>
        let newCur : Option Cmd :=
          some (command_type, value, time_units_left - TIME_BETWEEN_MOVEMENTS)
        ({ rc' with current_command := newCur }, rover')

/-- The polling loop of rover_simulation.py
(`while not rover_command.is_empty(): rover_command.update(...)`), counting
update calls; fuel-indexed, `none` when fuel runs out.  Noise draws are
fixed to `0`: the tick count never depends on the rover state. -/
noncomputable def run_to_empty : ℕ → RoverCommands → Rover → Option (ℕ × Rover)
  | 0, rc, r => if rc.is_empty then some (0, r) else none
  | fuel + 1, rc, r =>
    if rc.is_empty then some (0, r)
    else
      (rc.update r 0 0).bind fun p =>
        (run_to_empty fuel p.1 p.2).map fun q => (q.1 + 1, q.2)

/-! ### Claim C10 — `Rover.rotate` never moves the rover -/

/-- Claim C10 (confirmed): for every starting position, rotation angle and
noise draw (noise is consulted whenever `motor_stdev > 0`), `Rover.rotate`
leaves the position `(x, y)` exactly unchanged and touches only the
heading: the synthesised opposite wheel speeds cancel in the distance term,
which `motor_move` computes from the un-perturbed speeds. -/
theorem C10_rotate_fixes_position (r : Rover) (angle n1 n2 : ℝ) :
    (r.rotate angle n1 n2).x = r.x ∧ (r.rotate angle n1 n2).y = r.y ∧
    (r.rotate angle n1 n2).motor_stdev = r.motor_stdev := by
  unfold Rover.rotate Rover.motor_move
  refine ⟨?_, ?_, rfl⟩ <;>
    · show _ + (_ + -_) * _ * _ = _
      ring

/-! ### Claim C5 — where the Gaussian noise enters `motor_move` -/

/-- Claim C5, as stated: with nonzero configured noise, both the heading
change and the forward distance of one `motor_move` tick are computed from
the same noised wheel speeds.  The body follows the claim's words; it is
compared against `Rover.motor_move` (which noises the heading only). -/
noncomputable def motor_move_claimC5 (r : Rover) (motor1_speed motor2_speed : ℝ)
    (n1 n2 : ℝ) (time : ℝ := TIME_BETWEEN_MOVEMENTS) : Rover :=
  let motor1_speed_adj := motor1_speed + n1
  let motor2_speed_adj := motor2_speed + n2
  let angle_change := angle_from_motor_speed motor1_speed_adj motor2_speed_adj
  let distance := (motor1_speed_adj + motor2_speed_adj) * time
  let direction := r.direction + angle_change
  let d := convert_angle_to_2d_vector direction
  { r with
    direction := direction
    x := r.x + distance * d.1
    y := r.y + distance * d.2 }

def C5_claim : Prop :=
  ∀ (r : Rover) (m1 m2 n1 n2 : ℝ), r.motor_stdev > 0 →
    r.motor_move m1 m2 n1 n2 = motor_move_claimC5 r m1 m2 n1 n2

/-- Counterexample to C5: with noise `+1` on each wheel at commanded speeds
`(1, 1)` from heading `0`, the code advances `x` by `(1+1)·Δt = 0.002`
(distance from the commanded speeds) whereas the claim's computation gives
`(2+2)·Δt = 0.004`. -/
theorem C5_counterexample : ¬ C5_claim := by
  intro h
  have hx := congrArg Rover.x (h ⟨0, 0, 0, 1⟩ 1 1 1 1 (by norm_num))
  have hdir :
      TIME_BETWEEN_MOVEMENTS * (1 + 1 - (1 + 1)) / DISTANCE_BETWEEN_MOTORS = 0 := by
    norm_num
  simp only [Rover.motor_move, motor_move_claimC5, angle_from_motor_speed,
    convert_angle_to_2d_vector, gt_iff_lt, zero_lt_one, if_true, hdir,
    add_zero, zero_add, Real.cos_zero, Real.sin_zero] at hx
  norm_num [TIME_BETWEEN_MOVEMENTS] at hx

/-- Amended C5: with nonzero configured noise each wheel speed receives its
additive perturbation once per tick, but only the heading change
`Δt·(v₁ − v₂)/axle` is computed from the noisy speeds; the forward distance
`(v₁ + v₂)·Δt` is computed from the commanded (un-perturbed) speeds, and
both use the heading updated before translation. -/
theorem C5_amended (r : Rover) (m1 m2 n1 n2 : ℝ) (h : r.motor_stdev > 0) :
    (r.motor_move m1 m2 n1 n2).direction =
      r.direction +
        TIME_BETWEEN_MOVEMENTS * ((m1 + n1) - (m2 + n2)) / DISTANCE_BETWEEN_MOTORS ∧
    (r.motor_move m1 m2 n1 n2).x =
      r.x + (m1 + m2) * TIME_BETWEEN_MOVEMENTS *
        (convert_angle_to_2d_vector ((r.motor_move m1 m2 n1 n2).direction)).1 ∧
    (r.motor_move m1 m2 n1 n2).y =
      r.y + (m1 + m2) * TIME_BETWEEN_MOVEMENTS *
        (convert_angle_to_2d_vector ((r.motor_move m1 m2 n1 n2).direction)).2 := by
  unfold Rover.motor_move angle_from_motor_speed
  rw [if_pos h, if_pos h]
  refine ⟨rfl, ?_, ?_⟩ <;> ring

/-- Witness for the amended C5 at a concrete noisy rover. -/
theorem C5_amended_witness :
    (0 : ℝ) < 1 ∧
    ((Rover.mk 0 0 0 1).motor_move 1 1 1 1).direction =
      (0 : ℝ) + TIME_BETWEEN_MOVEMENTS * ((1 + 1) - (1 + 1)) / DISTANCE_BETWEEN_MOTORS := by
  refine ⟨by norm_num, ?_⟩
  exact (C5_amended ⟨0, 0, 0, 1⟩ 1 1 1 1 (by norm_num)).1

/-! ### Executor stepping lemmas -/

/-- Shorthand for a queued Move command. -/
def moveCmd (v T : ℝ) : Cmd := (RoverCommandType.MOVE, CmdVal.num v, T)

/-- Shorthand for a queued Rotate command. -/
def rotCmd (v T : ℝ) : Cmd := (RoverCommandType.ROTATE, CmdVal.num v, T)

theorem check_command_active (q : List Cmd) (c : Cmd) (h : 0 < c.2.2) :
    RoverCommands.check_command ⟨q, some c⟩ = ⟨q, some c⟩ := by
  unfold RoverCommands.check_command
  rw [if_neg]
  rintro (hnone | ⟨c', hc', hle⟩)
  · simp at hnone
  · simp only [Option.some_inj] at hc'
    rw [hc'] at h
    exact absurd hle (not_le.mpr h)

theorem check_command_pop (q : List Cmd) (c₀ : Cmd) (cur : Option Cmd)
    (h : cur = none ∨ ∃ c, cur = some c ∧ c.2.2 ≤ 0) :
    RoverCommands.check_command ⟨c₀ :: q, cur⟩ = ⟨q, some c₀⟩ := by
  unfold RoverCommands.check_command
  rw [if_pos]
  rcases h with h | ⟨c, hc, hle⟩
  · exact Or.inl (by simp [h])
  · exact Or.inr ⟨c, by simp [hc], hle⟩

theorem check_command_drained (cur : Option Cmd)
    (h : cur = none ∨ ∃ c, cur = some c ∧ c.2.2 ≤ 0) :
    RoverCommands.check_command ⟨[], cur⟩ = ⟨[], none⟩ := by
  unfold RoverCommands.check_command
  rw [if_pos]
  rcases h with h | ⟨c, hc, hle⟩
  · exact Or.inl (by simp [h])
  · exact Or.inr ⟨c, by simp [hc], hle⟩

theorem update_move_active (q : List Cmd) (v T : ℝ) (r : Rover) (n1 n2 : ℝ)
    (h : 0 < T) :
    RoverCommands.update ⟨q, some (moveCmd v T)⟩ r n1 n2 =
      some (⟨q, some (moveCmd v (T - TIME_BETWEEN_MOVEMENTS))⟩, r.move v n1 n2) := by
  unfold RoverCommands.update
  rw [check_command_active q (moveCmd v T) h]
  rfl

theorem update_rotate_active (q : List Cmd) (v T : ℝ) (r : Rover) (n1 n2 : ℝ)
    (h : 0 < T) :
    RoverCommands.update ⟨q, some (rotCmd v T)⟩ r n1 n2 =
      some (⟨q, some (rotCmd v (T - TIME_BETWEEN_MOVEMENTS))⟩, r.set_angle v) := by
  unfold RoverCommands.update
  rw [check_command_active q (rotCmd v T) h]
  rfl

theorem update_pop (q : List Cmd) (c₀ : Cmd) (cur : Option Cmd) (r : Rover)
    (n1 n2 : ℝ) (h : cur = none ∨ ∃ c, cur = some c ∧ c.2.2 ≤ 0)
    (hc₀ : 0 < c₀.2.2) :
    RoverCommands.update ⟨c₀ :: q, cur⟩ r n1 n2 =
      RoverCommands.update ⟨q, some c₀⟩ r n1 n2 := by
  unfold RoverCommands.update
  rw [check_command_pop q c₀ cur h, check_command_active q c₀ hc₀]

theorem update_drained (cur : Option Cmd) (r : Rover) (n1 n2 : ℝ)
    (h : cur = none ∨ ∃ c, cur = some c ∧ c.2.2 ≤ 0) :
    RoverCommands.update ⟨[], cur⟩ r n1 n2 = some (⟨[], none⟩, r) := by
  unfold RoverCommands.update
  rw [check_command_drained cur h]

theorem TBM_pos : (0 : ℝ) < TIME_BETWEEN_MOVEMENTS := by
  norm_num [TIME_BETWEEN_MOVEMENTS]

/-- One noise-free Move tick from heading `0`: the rover advances by
exactly `v` along the x axis. -/
theorem move_dir0 (x y v : ℝ) :
    (Rover.mk x y 0 0).move v 0 0 = Rover.mk (x + v) y 0 0 := by
  unfold Rover.move Rover.motor_move angle_from_motor_speed
    convert_angle_to_2d_vector
  have h1 : TIME_BETWEEN_MOVEMENTS * (v / TIME_BETWEEN_MOVEMENTS / 2 -
      v / TIME_BETWEEN_MOVEMENTS / 2) / DISTANCE_BETWEEN_MOTORS = 0 := by
    rw [sub_self]
    norm_num
  simp only [gt_iff_lt, lt_self_iff_false, if_false, h1, add_zero,
    Real.cos_zero, Real.sin_zero, abs_zero, abs_one]
  norm_num
  rw [div_mul_cancel₀ v (ne_of_gt TBM_pos)]

theorem is_empty_nil_none : (RoverCommands.mk [] none).is_empty = true := rfl

theorem is_empty_some (q : List Cmd) (c : Cmd) :
    (RoverCommands.mk q (some c)).is_empty = false := by
  simp [RoverCommands.is_empty]

theorem is_empty_cons (c₀ : Cmd) (q : List Cmd) :
    (RoverCommands.mk (c₀ :: q) none).is_empty = false := by
  simp [RoverCommands.is_empty]

theorem run_to_empty_done (f : ℕ) (rc : RoverCommands) (r : Rover)
    (h : rc.is_empty = true) : run_to_empty f rc r = some (0, r) := by
  cases f <;> simp [run_to_empty, h]

theorem run_to_empty_step (f : ℕ) (rc : RoverCommands) (r : Rover)
    (h : rc.is_empty = false) :
    run_to_empty (f + 1) rc r =
      (rc.update r 0 0).bind fun p =>
        (run_to_empty f p.1 p.2).map fun q => (q.1 + 1, q.2) := by
  simp [run_to_empty, h]

/-- Draining the current Move command: with `j` tick-multiples of time left,
`j` further updates each advance the rover by `v` and then the command sits
exhausted. -/
theorem run_drain_move (j : ℕ) : ∀ (f : ℕ) (q : List Cmd) (v x y : ℝ),
    run_to_empty (f + j) ⟨q, some (moveCmd v ((j : ℝ) * TIME_BETWEEN_MOVEMENTS))⟩
        (Rover.mk x y 0 0) =
      (run_to_empty f ⟨q, some (moveCmd v 0)⟩ (Rover.mk (x + j * v) y 0 0)).map
        fun p => (p.1 + j, p.2) := by
  induction j with
  | zero =>
      intro f q v x y
      rw [Nat.cast_zero, zero_mul, Nat.add_zero, zero_mul, add_zero]
      rcases run_to_empty f ⟨q, some (moveCmd v 0)⟩ (Rover.mk x y 0 0) with _ | p
      · rfl
      · rfl
  | succ j ih =>
      intro f q v x y
      have hpos : (0 : ℝ) < (((j : ℕ) + 1 : ℕ) : ℝ) * TIME_BETWEEN_MOVEMENTS := by
        have h0 := TBM_pos
        positivity
      have hne : (RoverCommands.mk q
          (some (moveCmd v ((((j : ℕ) + 1 : ℕ) : ℝ) * TIME_BETWEEN_MOVEMENTS)))).is_empty
            = false := is_empty_some _ _
      rw [show f + (j + 1) = (f + j) + 1 by omega,
        run_to_empty_step _ _ _ hne,
        update_move_active _ _ _ _ _ _ hpos]
      have htime : (((j : ℕ) + 1 : ℕ) : ℝ) * TIME_BETWEEN_MOVEMENTS - TIME_BETWEEN_MOVEMENTS
          = (j : ℝ) * TIME_BETWEEN_MOVEMENTS := by
        push_cast
        ring
      rw [Option.some_bind, move_dir0, htime, ih f q v (x + v) y]
      have hx : x + v + (j : ℝ) * v = x + (((j : ℕ) + 1 : ℕ) : ℝ) * v := by
        push_cast
        ring
      rw [hx]
      rcases run_to_empty f ⟨q, some (moveCmd v 0)⟩
          (Rover.mk (x + (((j : ℕ) + 1 : ℕ) : ℝ) * v) y 0 0) with _ | p
      · rfl
      · show some (p.1 + j + 1, p.2) = some (p.1 + (j + 1), p.2)
        rw [Nat.add_assoc]

theorem DBM_pos : (0 : ℝ) < DISTANCE_BETWEEN_MOTORS := by
  norm_num [DISTANCE_BETWEEN_MOTORS]

/-- An exhausted current command is the precondition of `check_command`'s
pop branch. -/
theorem exhausted_or_none_zero (v : ℝ) :
    (some (moveCmd v 0) = none) ∨
      ∃ c, some (moveCmd v 0) = some c ∧ c.2.2 ≤ 0 :=
  Or.inr ⟨moveCmd v 0, rfl, le_refl 0⟩

theorem run_end_move (f : ℕ) (v : ℝ) (r : Rover) :
    run_to_empty (f + 1) ⟨[], some (moveCmd v 0)⟩ r = some (1, r) := by
  rw [run_to_empty_step f _ r (is_empty_some _ _),
    update_drained _ r 0 0 (exhausted_or_none_zero v), Option.some_bind,
    run_to_empty_done f _ r is_empty_nil_none]
  rfl

theorem run_pop_move (f : ℕ) (q : List Cmd) (w : ℝ) (k : ℕ) (cur : Option Cmd)
    (h : cur = none ∨ ∃ c, cur = some c ∧ c.2.2 ≤ 0) (x y : ℝ) :
    run_to_empty (f + 1)
        ⟨moveCmd w ((((k : ℕ) + 1 : ℕ) : ℝ) * TIME_BETWEEN_MOVEMENTS) :: q, cur⟩
        (Rover.mk x y 0 0) =
      (run_to_empty f ⟨q, some (moveCmd w ((k : ℝ) * TIME_BETWEEN_MOVEMENTS))⟩
          (Rover.mk (x + w) y 0 0)).map fun p => (p.1 + 1, p.2) := by
  have hpos : (0 : ℝ) < (((k : ℕ) + 1 : ℕ) : ℝ) * TIME_BETWEEN_MOVEMENTS := by
    have h0 := TBM_pos
    positivity
  have hne : (RoverCommands.mk
      (moveCmd w ((((k : ℕ) + 1 : ℕ) : ℝ) * TIME_BETWEEN_MOVEMENTS) :: q)
      cur).is_empty = false := by
    rcases h with h | ⟨c, hc, _⟩
    · rw [h]; exact is_empty_cons _ _
    · rw [hc]; exact is_empty_some _ _
  rw [run_to_empty_step f _ _ hne, update_pop q _ cur _ 0 0 h hpos,
    update_move_active _ _ _ _ _ _ hpos, Option.some_bind, move_dir0]
  have htime : (((k : ℕ) + 1 : ℕ) : ℝ) * TIME_BETWEEN_MOVEMENTS -
      TIME_BETWEEN_MOVEMENTS = (k : ℝ) * TIME_BETWEEN_MOVEMENTS := by
    push_cast
    ring
  rw [htime]

/-- Running a queue of `m` identical Move commands of `k+1` ticks each, from
an exhausted current command: `m·(k+1) + 1` updates, advancing the rover by
`m·(k+1)` per-tick moves. -/
theorem run_queue_moves (k : ℕ) : ∀ (m f : ℕ) (w v x y : ℝ),
    run_to_empty (f + (m * (k + 2) + 1))
        ⟨List.replicate m (moveCmd w ((((k : ℕ) + 1 : ℕ) : ℝ) * TIME_BETWEEN_MOVEMENTS)),
          some (moveCmd v 0)⟩
        (Rover.mk x y 0 0) =
      some (m * (k + 1) + 1, Rover.mk (x + (m * (k + 1) : ℕ) * w) y 0 0) := by
  intro m
  induction m with
  | zero =>
      intro f w v x y
      rw [List.replicate_zero, Nat.zero_mul, Nat.zero_add, run_end_move f v _]
      norm_num
  | succ m ih =>
      intro f w v x y
      have hfuel : f + ((m + 1) * (k + 2) + 1) =
          ((f + 1 + (m * (k + 2) + 1)) + k) + 1 := by ring
      rw [List.replicate_succ, hfuel,
        run_pop_move _ _ w k _ (exhausted_or_none_zero v) x y,
        run_drain_move k _ _ w (x + w) y,
        ih (f + 1) w w (x + w + (k : ℝ) * w) y]
      have hcount : m * (k + 1) + 1 + k + 1 = (m + 1) * (k + 1) + 1 := by ring
      have hx : x + w + (k : ℝ) * w + ((m * (k + 1) : ℕ) : ℝ) * w =
          x + (((m + 1) * (k + 1) : ℕ) : ℝ) * w := by
        push_cast
        ring
      simp only [Option.map_some', Option.some_inj, Prod.mk.injEq]
      exact ⟨by ring, by rw [hx]⟩

/-- Starting the same queue from an empty current slot. -/
theorem run_queue_moves_start (k m f : ℕ) (w x y : ℝ) :
    run_to_empty (f + ((m + 1) * (k + 2) + 1))
        ⟨List.replicate (m + 1)
          (moveCmd w ((((k : ℕ) + 1 : ℕ) : ℝ) * TIME_BETWEEN_MOVEMENTS)), none⟩
        (Rover.mk x y 0 0) =
      some ((m + 1) * (k + 1) + 1,
        Rover.mk (x + ((m + 1) * (k + 1) : ℕ) * w) y 0 0) := by
  have hfuel : f + ((m + 1) * (k + 2) + 1) =
      ((f + 1 + (m * (k + 2) + 1)) + k) + 1 := by ring
  rw [List.replicate_succ, hfuel, run_pop_move _ _ w k none (Or.inl rfl) x y,
    run_drain_move k _ _ w (x + w) y,
    run_queue_moves k m (f + 1) w w (x + w + (k : ℝ) * w) y]
  have hcount : m * (k + 1) + 1 + k + 1 = (m + 1) * (k + 1) + 1 := by ring
  have hx : x + w + (k : ℝ) * w + ((m * (k + 1) : ℕ) : ℝ) * w =
      x + (((m + 1) * (k + 1) : ℕ) : ℝ) * w := by
    push_cast
    ring
  simp only [Option.map_some', Option.some_inj, Prod.mk.injEq]
  exact ⟨by ring, by rw [hx]⟩

theorem exhausted_or_none_rot (v : ℝ) :
    (some (rotCmd v 0) = none) ∨
      ∃ c, some (rotCmd v 0) = some c ∧ c.2.2 ≤ 0 :=
  Or.inr ⟨rotCmd v 0, rfl, le_refl 0⟩

theorem set_angle_fixed (r : Rover) (ψ : ℝ) (h : r.direction = ψ) :
    r.set_angle ψ = r := by
  cases r
  simp only [Rover.set_angle]
  simp_all

theorem run_end_rot (f : ℕ) (v : ℝ) (r : Rover) :
    run_to_empty (f + 1) ⟨[], some (rotCmd v 0)⟩ r = some (1, r) := by
  rw [run_to_empty_step f _ r (is_empty_some _ _),
    update_drained _ r 0 0 (exhausted_or_none_rot v), Option.some_bind,
    run_to_empty_done f _ r is_empty_nil_none]
  rfl

/-- Draining an already-applied Rotate command: each remaining tick
re-applies `set_angle` to the same target, leaving the rover fixed. -/
theorem run_drain_rot (j : ℕ) : ∀ (f : ℕ) (q : List Cmd) (ψ : ℝ) (r : Rover),
    r.direction = ψ →
    run_to_empty (f + j) ⟨q, some (rotCmd ψ ((j : ℝ) * TIME_BETWEEN_MOVEMENTS))⟩ r =
      (run_to_empty f ⟨q, some (rotCmd ψ 0)⟩ r).map fun p => (p.1 + j, p.2) := by
  induction j with
  | zero =>
      intro f q ψ r _
      rw [Nat.cast_zero, zero_mul, Nat.add_zero]
      rcases run_to_empty f ⟨q, some (rotCmd ψ 0)⟩ r with _ | p
      · rfl
      · rfl
  | succ j ih =>
      intro f q ψ r hr
      have hpos : (0 : ℝ) < (((j : ℕ) + 1 : ℕ) : ℝ) * TIME_BETWEEN_MOVEMENTS := by
        have h0 := TBM_pos
        positivity
      rw [show f + (j + 1) = (f + j) + 1 by omega,
        run_to_empty_step _ _ _ (is_empty_some _ _),
        update_rotate_active _ _ _ _ _ _ hpos]
      have htime : (((j : ℕ) + 1 : ℕ) : ℝ) * TIME_BETWEEN_MOVEMENTS -
          TIME_BETWEEN_MOVEMENTS = (j : ℝ) * TIME_BETWEEN_MOVEMENTS := by
        push_cast
        ring
      rw [Option.some_bind, set_angle_fixed r ψ hr, htime, ih f q ψ r hr]
      rcases run_to_empty f ⟨q, some (rotCmd ψ 0)⟩ r with _ | p
      · rfl
      · show some (p.1 + j + 1, p.2) = some (p.1 + (j + 1), p.2)
        rw [Nat.add_assoc]

/-- Running a single freshly queued Rotate command of `k+1` ticks: `k+2`
updates, after which the heading equals the target and the position is
untouched. -/
theorem run_single_rot (k f : ℕ) (ψ : ℝ) (r : Rover) :
    run_to_empty (f + (k + 2))
        ⟨[rotCmd ψ ((((k : ℕ) + 1 : ℕ) : ℝ) * TIME_BETWEEN_MOVEMENTS)], none⟩ r =
      some (k + 2, r.set_angle ψ) := by
  have hpos : (0 : ℝ) < (((k : ℕ) + 1 : ℕ) : ℝ) * TIME_BETWEEN_MOVEMENTS := by
    have h0 := TBM_pos
    positivity
  have hfuel : f + (k + 2) = (((f + 1) + k) + 1) := by omega
  rw [hfuel, run_to_empty_step _ _ _ (is_empty_cons _ _),
    update_pop _ _ none r 0 0 (Or.inl rfl) hpos,
    update_rotate_active _ _ _ _ _ _ hpos, Option.some_bind]
  have htime : (((k : ℕ) + 1 : ℕ) : ℝ) * TIME_BETWEEN_MOVEMENTS -
      TIME_BETWEEN_MOVEMENTS = (k : ℝ) * TIME_BETWEEN_MOVEMENTS := by
    push_cast
    ring
  rw [htime, run_drain_rot k (f + 1) [] ψ (r.set_angle ψ) rfl,
    run_end_rot f ψ _]
  simp only [Option.map_some', Option.some_inj, Prod.mk.injEq]
  refine ⟨by omega, by trivial⟩

theorem add_command_move (rc : RoverCommands) (d T : ℝ) :
    rc.add_command RoverCommandType.MOVE (CmdVal.num d) T =
      { rc with command_queue := rc.command_queue ++
          [moveCmd (d * TIME_BETWEEN_MOVEMENTS / T) T] } := by
  unfold RoverCommands.add_command
  simp [moveCmd]

theorem add_command_rotate (rc : RoverCommands) (ψ T : ℝ) :
    rc.add_command RoverCommandType.ROTATE (CmdVal.num ψ) T =
      { rc with command_queue := rc.command_queue ++ [rotCmd ψ T] } := by
  unfold RoverCommands.add_command
  simp [rotCmd]

/-! ### Claim C2 — Move/Rotate as wheel-speed pairs, converging per tick -/

/-- Claim C2: each per-tick application of a current Move command is the
equal wheel-speed pair `(v/Δt/2, v/Δt/2)` of §4.3, and each per-tick
application of a current Rotate command equals the §4.3 opposite
wheel-speed pair for the remaining heading correction; a Move of requested
distance `d` and duration `(k+1)·Δt`, rescaled on enqueue to the tick value
`d·Δt/T`, accumulates to exactly `d` over its `k+1` applications, and a
Rotate reaches exactly its requested target angle.  The Rotate branch
applies the spec-modelled `Rover.set_angle` (an instantaneous heading
assignment, re-applied idempotently each tick), which the theorem shows
extensionally equal to the noise-free wheel-speed pair of §4.3. -/
theorem C2_move_rotate_wheel_pairs :
    (∀ (q : List Cmd) (v T : ℝ) (r : Rover) (n1 n2 : ℝ), 0 < T →
      RoverCommands.update ⟨q, some (moveCmd v T)⟩ r n1 n2 =
        some (⟨q, some (moveCmd v (T - TIME_BETWEEN_MOVEMENTS))⟩,
          r.motor_move (v / TIME_BETWEEN_MOVEMENTS / 2) (v / TIME_BETWEEN_MOVEMENTS / 2)
            n1 n2)) ∧
    (∀ (q : List Cmd) (ψ T : ℝ) (r : Rover) (n1 n2 : ℝ), 0 < T →
      RoverCommands.update ⟨q, some (rotCmd ψ T)⟩ r n1 n2 =
        some (⟨q, some (rotCmd ψ (T - TIME_BETWEEN_MOVEMENTS))⟩,
          r.motor_move (get_rpm_for_still_rotation (ψ - r.direction) TIME_BETWEEN_MOVEMENTS)
            (-(get_rpm_for_still_rotation (ψ - r.direction) TIME_BETWEEN_MOVEMENTS)) 0 0)) ∧
    (∀ (k f : ℕ) (d x y : ℝ),
      run_to_empty (f + (1 * (k + 2) + 1))
        (RoverCommands.init.add_command RoverCommandType.MOVE (CmdVal.num d)
          ((((k : ℕ) + 1 : ℕ) : ℝ) * TIME_BETWEEN_MOVEMENTS))
        (Rover.mk x y 0 0) =
      some (1 * (k + 1) + 1, Rover.mk (x + d) y 0 0)) ∧
    (∀ (k f : ℕ) (ψ : ℝ) (r : Rover),
      run_to_empty (f + (k + 2))
        (RoverCommands.init.add_command RoverCommandType.ROTATE (CmdVal.num ψ)
          ((((k : ℕ) + 1 : ℕ) : ℝ) * TIME_BETWEEN_MOVEMENTS)) r =
      some (k + 2, r.set_angle ψ)) := by
  refine ⟨?_, ?_, ?_, ?_⟩
  · intro q v T r n1 n2 hT
    rw [update_move_active q v T r n1 n2 hT]
    rfl
  · intro q ψ T r n1 n2 hT
    rw [update_rotate_active q ψ T r n1 n2 hT]
    have hv : r.set_angle ψ =
        r.motor_move (get_rpm_for_still_rotation (ψ - r.direction) TIME_BETWEEN_MOVEMENTS)
          (-(get_rpm_for_still_rotation (ψ - r.direction) TIME_BETWEEN_MOVEMENTS)) 0 0 := by
      obtain ⟨x, y, θ, s⟩ := r
      unfold Rover.set_angle Rover.motor_move angle_from_motor_speed
        get_rpm_for_still_rotation
      have hcancel : ∀ a : ℝ,
          (if s > 0 then a + 0 else a) - (if s > 0 then -a + 0 else -a) = 2 * a := by
        intro a
        split_ifs <;> ring
      simp only [hcancel]
      have h1 : TIME_BETWEEN_MOVEMENTS ≠ 0 := ne_of_gt TBM_pos
      have h2 : DISTANCE_BETWEEN_MOTORS ≠ 0 := ne_of_gt DBM_pos
      have hangle : TIME_BETWEEN_MOVEMENTS *
          (2 * ((ψ - θ) * DISTANCE_BETWEEN_MOTORS / (2 * TIME_BETWEEN_MOVEMENTS))) /
            DISTANCE_BETWEEN_MOTORS = ψ - θ := by
        field_simp
        ring
      simp only [hangle, Rover.mk.injEq]
      refine ⟨by ring, by ring, by ring, by trivial⟩
    rw [hv]
  · intro k f d x y
    have hq : RoverCommands.init.add_command RoverCommandType.MOVE (CmdVal.num d)
        ((((k : ℕ) + 1 : ℕ) : ℝ) * TIME_BETWEEN_MOVEMENTS) =
        ⟨List.replicate (0 + 1) (moveCmd
          (d * TIME_BETWEEN_MOVEMENTS / ((((k : ℕ) + 1 : ℕ) : ℝ) * TIME_BETWEEN_MOVEMENTS))
          ((((k : ℕ) + 1 : ℕ) : ℝ) * TIME_BETWEEN_MOVEMENTS)), none⟩ := by
      unfold RoverCommands.init RoverCommands.add_command
      simp [moveCmd]
    rw [show f + (1 * (k + 2) + 1) = f + ((0 + 1) * (k + 2) + 1) by ring, hq,
      run_queue_moves_start k 0 f
        (d * TIME_BETWEEN_MOVEMENTS / ((((k : ℕ) + 1 : ℕ) : ℝ) * TIME_BETWEEN_MOVEMENTS)) x y]
    have hd : x + (((0 + 1) * (k + 1) : ℕ) : ℝ) *
        (d * TIME_BETWEEN_MOVEMENTS / ((((k : ℕ) + 1 : ℕ) : ℝ) * TIME_BETWEEN_MOVEMENTS)) =
        x + d := by
      have h1 : TIME_BETWEEN_MOVEMENTS ≠ 0 := ne_of_gt TBM_pos
      have hk : ((((k : ℕ) + 1 : ℕ) : ℝ)) ≠ 0 := by positivity
      push_cast at hk ⊢
      field_simp
      ring
    rw [hd, show (0 + 1) * (k + 1) + 1 = 1 * (k + 1) + 1 by ring]
  · intro k f ψ r
    have hq : RoverCommands.init.add_command RoverCommandType.ROTATE (CmdVal.num ψ)
        ((((k : ℕ) + 1 : ℕ) : ℝ) * TIME_BETWEEN_MOVEMENTS) =
        ⟨[rotCmd ψ ((((k : ℕ) + 1 : ℕ) : ℝ) * TIME_BETWEEN_MOVEMENTS)], none⟩ := by
      unfold RoverCommands.init RoverCommands.add_command
      simp [rotCmd]
    rw [hq]
    exact run_single_rot k f ψ r

/-- Witness for C2 at concrete inputs: a 5-tick Move of 2 m accumulates to
exactly 2 m in 6 update calls, and a 5-tick Rotate to heading `3` finishes
with heading exactly `3` in 6 update calls. -/
theorem C2_witness :
    (0 : ℝ) < 1 ∧
    run_to_empty (0 + (1 * (4 + 2) + 1))
        (RoverCommands.init.add_command RoverCommandType.MOVE (CmdVal.num 2)
          ((((4 : ℕ) + 1 : ℕ) : ℝ) * TIME_BETWEEN_MOVEMENTS))
        (Rover.mk 0 0 0 0) =
      some (1 * (4 + 1) + 1, Rover.mk ((0 : ℝ) + 2) 0 0 0) ∧
    run_to_empty (0 + (4 + 2))
        (RoverCommands.init.add_command RoverCommandType.ROTATE (CmdVal.num 3)
          ((((4 : ℕ) + 1 : ℕ) : ℝ) * TIME_BETWEEN_MOVEMENTS))
        (Rover.mk 0 0 0 0) =
      some (4 + 2, (Rover.mk 0 0 0 0).set_angle 3) :=
  ⟨by norm_num,
   C2_move_rotate_wheel_pairs.2.2.1 4 0 2 0 0,
   C2_move_rotate_wheel_pairs.2.2.2 4 0 3 (Rover.mk 0 0 0 0)⟩

/-! ## environment.py — clearance line-of-sight geometry -/

/-- Python `int()` truncation toward zero of a real. -/
noncomputable def pytrunc (r : ℝ) : ℤ := if 0 ≤ r then ⌊r⌋ else -⌊-r⌋

/-- Python `range(a, b)` over integers. -/
def intRange (a b : ℤ) : List ℤ := (List.range (b - a).toNat).map fun n => a + n

/-- `f_x` from environment.py.  (When `p1.y = p2.y` the source raises
`ZeroDivisionError`; its callers only evaluate it on non-empty `y` ranges,
which force `p1.y ≠ p2.y`, so the Lean `x/0 = 0` default is never hit.) -/
noncomputable def f_x (point_1 point_2 : ℝ × ℝ) (y : ℝ) : ℝ :=
  let gradient := (point_2.1 - point_1.1) / (point_2.2 - point_1.2)
  gradient * (y - point_1.2) + point_1.1

/-- `f_y` from environment.py, same remark as `f_x`. -/
noncomputable def f_y (point_1 point_2 : ℝ × ℝ) (x : ℝ) : ℝ :=
  let gradient := (point_2.2 - point_1.2) / (point_2.1 - point_1.1)
  gradient * (x - point_1.1) + point_1.2

/-- `get_intersected_coordinates` from environment.py: the cells crossed by
the segment, enumerated by both axis-aligned slope evaluations. -/
noncomputable def get_intersected_coordinates (point_1 point_2 : ℝ × ℝ) :
    List Cell :=
  let x_min := ⌊min point_1.1 point_2.1⌋
  let x_max := ⌊max point_1.1 point_2.1⌋
  let y_min := ⌊min point_1.2 point_2.2⌋
  let y_max := ⌊max point_1.2 point_2.2⌋
  ((intRange x_min x_max).map fun x => (x, pytrunc (f_y point_1 point_2 (Int.cast x))))
    ++ ((intRange y_min y_max).map fun y => (pytrunc (f_x point_1 point_2 (Int.cast y)), y))

/-- The per-sample obstacle check inside `_is_line_of_sight`: a blocking
sample is one whose `get_tile` read succeeds and yields OBSTACLE; the
`except IndexError: pass` of the source makes a failing read non-blocking. -/
def tile_blocks (env : Environment) (c : Cell) : Bool :=
  match env.get_tile c.1 c.2 with
  | some t => t = EnvType.OBSTACLE
  | none => false

/-- All ray sample cells visited by `_is_line_of_sight`: 11 parallel rays
spanning `width_val / METERS_PER_TILE` tile units around the segment from
`point_1` to `point_2 + (1, 1)`. -/
noncomputable def losSamples (point_1 point_2 : Cell) (width_val : ℝ) :
    List Cell :=
  let dir0 : ℝ × ℝ :=
    (((point_2.1 - point_1.1 : ℤ) : ℝ), ((point_2.2 - point_1.2 : ℤ) : ℝ))
  let magnitude := Real.sqrt (dir0.1 * dir0.1 + dir0.2 * dir0.2)
  let dir : ℝ × ℝ := (dir0.1 / magnitude, dir0.2 / magnitude)
  let dist := width_val / METERS_PER_TILE
  let perp : ℝ × ℝ := (dir.2, -dir.1)
  let start_point : ℝ × ℝ :=
    ((point_1.1 : ℝ) - dist / 2 * perp.1, (point_1.2 : ℝ) - dist / 2 * perp.2)
  let end_point : ℝ × ℝ :=
    ((point_2.1 : ℝ) + 1 - dist / 2 * perp.1, (point_2.2 : ℝ) + 1 - dist / 2 * perp.2)
  (List.range 11).bind fun ray =>
    let s_p : ℝ × ℝ :=
      (start_point.1 + dist * ((ray : ℝ) / (11 - 1)) * perp.1,
       start_point.2 + dist * ((ray : ℝ) / (11 - 1)) * perp.2)
    let e_p : ℝ × ℝ :=
      (end_point.1 + dist * ((ray : ℝ) / (11 - 1)) * perp.1,
       end_point.2 + dist * ((ray : ℝ) / (11 - 1)) * perp.2)
    get_intersected_coordinates s_p e_p

/-- `_is_line_of_sight` from environment.py: true iff no ray sample cell
blocks (the source's early `return False` on the first blocking sample is
the same boolean). -/
noncomputable def is_line_of_sight (env : Environment) (point_1 point_2 : Cell)
    (width_val : ℝ) : Bool :=
  !(losSamples point_1 point_2 width_val).any fun c => tile_blocks env c

/-! ### Claim C3 — out-of-bounds ray samples in the visibility test -/

theorem sqrt_four : Real.sqrt 4 = 2 := by
  rw [show (4 : ℝ) = 2 ^ 2 by norm_num, Real.sqrt_sq (by norm_num : (0:ℝ) ≤ 2)]

/-- The 2×3 grid with an obstacle at `(1, 0)`, used against C3. -/
def envC3 : Environment :=
  { map := [[EnvType.EMPTY, EnvType.OBSTACLE],
            [EnvType.EMPTY, EnvType.EMPTY],
            [EnvType.EMPTY, EnvType.EMPTY]]
    rover := none, start := none, endCells := none
    start_dir := 0, end_dir := 0, path := none }

/-- Claim C3, as stated: inside the visibility test, every ray sample cell
lying outside `[0,W) × [0,H)` is treated as not obstructed. -/
def C3_claim : Prop :=
  ∀ (env : Environment) (W H : ℕ), wellFormed env W H →
    ∀ (a b : Cell) (w : ℝ), a ≠ b →
      ∀ s ∈ losSamples a b w,
        ¬(0 ≤ s.1 ∧ s.1 < (W : ℤ) ∧ 0 ≤ s.2 ∧ s.2 < (H : ℤ)) →
          tile_blocks env s = false

/-- The visibility test between `(0,0)` and `(0,2)` at clearance `0.02`
casts a ray through the out-of-grid cell `(-1, 0)`. -/
theorem C3_sample_mem :
    ((-1 : ℤ), (0 : ℤ)) ∈ losSamples ((0 : ℤ), (0 : ℤ)) ((0 : ℤ), (2 : ℤ)) (1 / 50) := by
  simp only [losSamples]
  rw [List.mem_bind]
  refine ⟨0, by norm_num, ?_⟩
  norm_num [sqrt_four, METERS_PER_TILE, get_intersected_coordinates, f_x, f_y,
    pytrunc, intRange, List.range_succ, show (3 : ℤ).toNat = 3 from rfl]

/-- Counterexample to C3: the sample `(-1, 0)` is outside the 2×3 grid, yet
Python's negative indexing wraps `get_tile(-1, 0)` to the obstacle at
`(1, 0)`, so the out-of-bounds sample blocks the ray instead of passing. -/
theorem C3_counterexample : ¬ C3_claim := by
  intro h
  have hwf : wellFormed envC3 2 3 := by
    constructor
    · rfl
    · intro row hrow
      simp only [envC3, List.mem_cons, List.mem_singleton, List.not_mem_nil,
        or_false] at hrow
      rcases hrow with h1 | h1 | h1 <;> simp [h1]
  have hblk := h envC3 2 3 hwf ((0 : ℤ), (0 : ℤ)) ((0 : ℤ), (2 : ℤ)) (1 / 50)
    (by decide) ((-1 : ℤ), (0 : ℤ)) C3_sample_mem (by decide)
  have hb : tile_blocks envC3 ((-1 : ℤ), (0 : ℤ)) = true := by decide
  rw [hb] at hblk
  exact absurd hblk (by decide)

/-- Amended C3: a ray sample is treated as not obstructed exactly when its
`get_tile` read raises (coordinates outside the relaxed Python index range
`[-W, W) × [-H, H)`); samples with negative coordinates inside one grid
extent silently wrap and can block the ray, as shown above.
Direct tile access is the only place the `IndexError` escapes. -/
theorem C3_amended (env : Environment) (W H : ℕ) (hwf : wellFormed env W H)
    (s : Cell)
    (hout : ¬(-(W : ℤ) ≤ s.1 ∧ s.1 < (W : ℤ) ∧ -(H : ℤ) ≤ s.2 ∧ s.2 < (H : ℤ))) :
    tile_blocks env s = false := by
  have hnone : env.get_tile s.1 s.2 = none := by
    have h := get_tile_isSome_iff env W H s.1 s.2 hwf
    rcases heq : env.get_tile s.1 s.2 with _ | t
    · rfl
    · exact absurd (h.mp (by simp [heq])) hout
  unfold tile_blocks
  rw [hnone]

/-- Witness for the amended C3: the sample `(-3, 0)` lies beyond even the
wrapped range of `envC3`, and indeed does not block. -/
theorem C3_amended_witness :
    ¬(-(2 : ℤ) ≤ (-3 : ℤ) ∧ (-3 : ℤ) < (2 : ℤ) ∧ -(3 : ℤ) ≤ (0 : ℤ) ∧ (0 : ℤ) < (3 : ℤ)) ∧
    tile_blocks envC3 ((-3 : ℤ), (0 : ℤ)) = false := by
  refine ⟨by decide, ?_⟩
  exact C3_amended envC3 2 3
    (by constructor
        · rfl
        · intro row hrow
          simp only [envC3, List.mem_cons, List.mem_singleton, List.not_mem_nil,
            or_false] at hrow
          rcases hrow with h1 | h1 | h1 <;> simp [h1])
    ((-3 : ℤ), (0 : ℤ)) (by decide)

/-! ### Claim C6 — symmetry of the visibility test -/

/-- With clearance width `0` all perpendicular offsets vanish: every ray is
the bare segment from `point_1` to `point_2 + (1, 1)`. -/
theorem losSamples_width_zero (p1 p2 : Cell) :
    losSamples p1 p2 0 = (List.range 11).bind fun _ =>
      get_intersected_coordinates ((p1.1 : ℝ), (p1.2 : ℝ))
        ((p2.1 : ℝ) + 1, (p2.2 : ℝ) + 1) := by
  simp only [losSamples]
  norm_num

/-- The 2×3 grid with an obstacle at `(0, 1)`, used against C6. -/
def envC6 : Environment :=
  { map := [[EnvType.EMPTY, EnvType.EMPTY],
            [EnvType.OBSTACLE, EnvType.EMPTY],
            [EnvType.EMPTY, EnvType.EMPTY]]
    rover := none, start := none, endCells := none
    start_dir := 0, end_dir := 0, path := none }

theorem inter_C6_ab :
    get_intersected_coordinates (0 : ℝ × ℝ) ((1 : ℝ), (3 : ℝ)) =
      [((0:ℤ),(0:ℤ)), ((0:ℤ),(0:ℤ)), ((0:ℤ),(1:ℤ)), ((0:ℤ),(2:ℤ))] := by
  unfold get_intersected_coordinates f_x f_y pytrunc intRange
  norm_num [List.range_succ, show (3 : ℤ).toNat = 3 from rfl]

theorem inter_C6_ba :
    get_intersected_coordinates ((0 : ℝ), (2 : ℝ)) (1 : ℝ × ℝ) =
      [((0:ℤ),(2:ℤ)), ((1:ℤ),(1:ℤ))] := by
  unfold get_intersected_coordinates f_x f_y pytrunc intRange
  norm_num [List.range_succ]

theorem los_C6_ab : is_line_of_sight envC6 ((0:ℤ),(0:ℤ)) ((0:ℤ),(2:ℤ)) 0 = false := by
  unfold is_line_of_sight
  rw [losSamples_width_zero]
  simp only [Bool.not_eq_false']
  rw [List.any_eq_true]
  refine ⟨((0:ℤ),(1:ℤ)), ?_, by decide⟩
  rw [List.mem_bind]
  refine ⟨0, by norm_num, ?_⟩
  norm_num [inter_C6_ab]

theorem los_C6_ba : is_line_of_sight envC6 ((0:ℤ),(2:ℤ)) ((0:ℤ),(0:ℤ)) 0 = true := by
  unfold is_line_of_sight
  rw [losSamples_width_zero]
  simp only [Bool.not_eq_true']
  rw [List.any_eq_false]
  intro c hc
  rw [List.mem_bind] at hc
  obtain ⟨ray, _, hc⟩ := hc
  norm_num [inter_C6_ba] at hc
  rcases hc with hc | hc <;> rw [hc] <;> decide

theorem bool_false_ne_true : (false : Bool) ≠ true := by decide

/-- Claim C6, as stated: the clearance visibility predicate is symmetric in
its endpoints. -/
def C6_claim : Prop :=
  ∀ (env : Environment) (a b : Cell) (w : ℝ), a ≠ b →
    is_line_of_sight env a b w = is_line_of_sight env b a w

/-- Counterexample to C6: on `envC6` with clearance `0`, sight from `(0,0)`
to `(0,2)` is blocked (its corridor runs to `(1,3)` and crosses the obstacle
at `(0,1)`) while sight from `(0,2)` to `(0,0)` is clear (its corridor runs
to `(1,1)` and misses it). -/
theorem C6_counterexample : ¬ C6_claim := by
  intro h
  have := h envC6 ((0:ℤ),(0:ℤ)) ((0:ℤ),(2:ℤ)) 0 (by decide)
  rw [los_C6_ab, los_C6_ba] at this
  exact bool_false_ne_true this

/-- Amended C6: the visibility test is not symmetric in its endpoints — the
sampled corridor always extends one tile beyond the second endpoint, so
swapping the endpoints changes the sampled cells and there are environments,
distinct cells and widths on which the two directions disagree. -/
theorem C6_amended :
    ∃ (env : Environment) (a b : Cell) (w : ℝ), a ≠ b ∧
      is_line_of_sight env a b w ≠ is_line_of_sight env b a w := by
  refine ⟨envC6, ((0:ℤ),(0:ℤ)), ((0:ℤ),(2:ℤ)), 0, by decide, ?_⟩
  rw [los_C6_ab, los_C6_ba]
  exact bool_false_ne_true

/-! ## environment.py — the Theta* path planner

Float `inf` is modelled by `(⊤ : EReal)`; finite costs are coerced reals.
Matrix reads/writes only ever happen at in-grid cells in the source (an
out-of-range access would raise); reads fall back to a stated default and
writes out of range are no-ops, neither of which is reachable from the
theorems below. -/

/-- Read `m[c.y][c.x]` with a default for the unreachable out-of-range case. -/
def mat_get (m : List (List α)) (c : Cell) (dflt : α) : α :=
  (((pyGet m c.2).bind fun row => pyGet row c.1).getD dflt)

/-- Write `m[c.y][c.x] = a` (no-op out of range, unreachable). -/
def mat_set (m : List (List α)) (c : Cell) (a : α) : List (List α) :=
  m.set c.2.toNat (((m.get? c.2.toNat).getD []).set c.1.toNat a)

/-- `_cost` from environment.py: `g(p1) + angularPenalty(p1,p2) +
euclideanDistance(p1,p2)`, with the angular penalty `|arctan(dy/dx)|` and
`π/2` for vertical edges. -/
noncomputable def _cost (traversal_costs : List (List EReal))
    (point_1 point_2 : Cell) : EReal :=
  let g_val := mat_get traversal_costs point_1 ⊤
  let dx : ℤ := point_2.1 - point_1.1
  let dy : ℤ := point_2.2 - point_1.2
  let distance_heuristic : ℝ := Real.sqrt ((dx : ℝ) * dx + dy * dy)
  let ang : ℝ := if dx ≠ 0 then |Real.arctan ((dy : ℝ) / (dx : ℝ))| else Real.pi / 2
  g_val + (ang : ℝ) + (distance_heuristic : ℝ)

/-- The minimum scan inside `_poll`. -/
noncomputable def pollFold (traversal_costs : List (List EReal)) (end_pos : Cell) :
    List Cell → EReal → Option Cell → EReal × Option Cell
  | [], min_cst, out_pos => (min_cst, out_pos)
  | pos :: rest, min_cst, out_pos =>
      let cst := _cost traversal_costs pos end_pos
      if cst < min_cst then pollFold traversal_costs end_pos rest cst (some pos)
      else pollFold traversal_costs end_pos rest min_cst out_pos

/-- `_poll` from environment.py: linear minimum scan, then
`open_nodes_queue.remove(out_pos)`; `none` models the `ValueError` that
`remove(None)` would raise when every cost is infinite. -/
noncomputable def _poll (open_nodes_queue : List Cell)
    (traversal_costs : List (List EReal)) (end_pos : Cell) :
    Option (Cell × List Cell) :=
  match (pollFold traversal_costs end_pos open_nodes_queue ⊤ none).2 with
  | none => none
  | some p => some (p, open_nodes_queue.erase p)

/-- `_get_neighbours` from environment.py: 4-connected, in-grid,
non-obstacle, in the source's probe order. -/
def _get_neighbours (env : Environment) (node : Cell) : List Cell :=
  ([((1:ℤ),(0:ℤ)), (0,-1), (-1,0), (0,1)]).filterMap fun d =>
    let new_x := node.1 + d.1
    let new_y := node.2 + d.2
    if new_x < 0 ∨ (env.size.1 : ℤ) ≤ new_x then none
    else if new_y < 0 ∨ (env.size.2 : ℤ) ≤ new_y then none
    else if env.get_tile new_x new_y = some EnvType.OBSTACLE then none
    else some (new_x, new_y)

/-- The planner's mutable search state. -/
structure SearchState where
  open_nodes_queue : List Cell
  close_nodes_list : List Cell
  traversal_costs : List (List EReal)
  parent : List (List (Option Cell))

/-- `_update_vertex` from environment.py: the Theta* path-2 shortcut.
`none` models the crash of passing an unset parent into the visibility
test (unreachable: popped nodes always have a parent). -/
noncomputable def _update_vertex (env : Environment) (open_nodes_queue : List Cell)
    (traversal_costs : List (List EReal)) (parent : List (List (Option Cell)))
    (point_1 point_2 : Cell) (width_val : ℝ) :
    Option (List Cell × List (List EReal) × List (List (Option Cell))) :=
  match mat_get parent point_1 none with
  | none => none
  | some n_parent =>
      if is_line_of_sight env point_1 point_2 width_val then
        if is_line_of_sight env n_parent point_2 width_val then
          if _cost traversal_costs n_parent point_2 <
              mat_get traversal_costs point_2 ⊤ then
            some ((if point_2 ∈ open_nodes_queue then open_nodes_queue
                   else open_nodes_queue ++ [point_2]),
                  mat_set traversal_costs point_2 (_cost traversal_costs n_parent point_2),
                  mat_set parent point_2 (some n_parent))
          else some (open_nodes_queue, traversal_costs, parent)
        else if _cost traversal_costs point_1 point_2 <
            mat_get traversal_costs point_2 ⊤ then
          some ((if point_2 ∈ open_nodes_queue then open_nodes_queue
                 else open_nodes_queue ++ [point_2]),
                mat_set traversal_costs point_2 (_cost traversal_costs point_1 point_2),
                mat_set parent point_2 (some point_1))
        else some (open_nodes_queue, traversal_costs, parent)
      else some (open_nodes_queue, traversal_costs, parent)

/-- One expansion: close the popped node and run `_update_vertex` on its
non-closed neighbours, in order. -/
noncomputable def expandNode (env : Environment) (width_val : ℝ) (node : Cell)
    (open' : List Cell) (st : SearchState) : Option SearchState :=
  let close' := st.close_nodes_list ++ [node]
  ((_get_neighbours env node).foldl
    (fun acc nb => acc.bind fun s =>
      if nb ∈ close' then some s
      else (_update_vertex env s.1 s.2.1 s.2.2 node nb width_val))
    (some (open', st.traversal_costs, st.parent))).map
    fun s => ⟨s.1, close', s.2.1, s.2.2⟩

/-- The main search loop of `pathfind`, fuel-indexed (each iteration pops
one cell and each cell enters OPEN at most once, so `W·H + 1` fuel is
enough; `none` is an uncaught error or exhausted fuel). -/
noncomputable def pathfindLoop (env : Environment) (end_pos : Cell)
    (width_val : ℝ) : ℕ → SearchState → Option SearchState
  | 0, _ => none
  | fuel + 1, st =>
      if st.open_nodes_queue = [] then some st
      else
        (_poll st.open_nodes_queue st.traversal_costs end_pos).bind fun po =>
          if po.1 = end_pos then some { st with open_nodes_queue := po.2 }
          else
            (expandNode env width_val po.1 po.2 st).bind fun st' =>
              pathfindLoop env end_pos width_val fuel st'

/-- The backtracking loop after the search: follow parents from the goal to
the start; `none` models the crash on an unset parent mid-chain. -/
def reconstructPath (parent : List (List (Option Cell))) (start : Cell) :
    ℕ → Cell → List Cell → Option (List Cell)
  | 0, _, _ => none
  | fuel + 1, node, acc =>
      if node = start then some acc
      else
        match mat_get parent node none with
        | none => none
        | some nxt => reconstructPath parent start fuel nxt (acc ++ [nxt])

/-- The initial search state of `pathfind`. -/
noncomputable def initState (env : Environment) (start : Cell) : SearchState :=
  let env_width := env.size.1
  let env_height := env.size.2
  { open_nodes_queue := [start]
    close_nodes_list := []
    traversal_costs :=
      mat_set (List.replicate env_height (List.replicate env_width (⊤ : EReal)))
        start ((0 : ℝ) : EReal)
    parent :=
      mat_set (List.replicate env_height (List.replicate env_width
        (none : Option Cell))) start (some start) }

/-- `pathfind` from environment.py. -/
noncomputable def pathfind (env : Environment) (start end_pos : Cell)
    (width_val : ℝ) : Option (List Cell) :=
  let fuel := env.size.1 * env.size.2 + 1
  (pathfindLoop env end_pos width_val fuel (initState env start)).bind fun st =>
    if mat_get st.parent end_pos none = none then some []
    else
      (reconstructPath st.parent start fuel end_pos [end_pos]).map
        fun reverse_path => reverse_path.reverse

/-- The nearest-goal scan in `pathfind_multiple`. -/
noncomputable def nearestFold (cur_node : Cell) :
    List Cell → EReal → Option Cell → Option Cell
  | [], _, cur_end => cur_end
  | e :: rest, cur_dist, cur_end =>
      let dx : ℤ := e.1 - cur_node.1
      let dy : ℤ := e.2 - cur_node.2
      let dist : EReal := ((Real.sqrt ((dx : ℝ) ^ 2 + (dy : ℝ) ^ 2) : ℝ) : EReal)
      if dist < cur_dist then nearestFold cur_node rest dist (some e)
      else nearestFold cur_node rest cur_dist cur_end

/-- Appending one leg's nodes onto the accumulated route, skipping a node
equal to the route's current last cell. -/
def appendDedup (full_path cur_path : List Cell) : List Cell :=
  cur_path.foldl
    (fun acc node =>
      match acc.getLast? with
      | none => acc ++ [node]
      | some last => if node ≠ last then acc ++ [node] else acc)
    full_path

/-- `pathfind_multiple` from environment.py: greedy nearest-goal stitching;
recursion on the goal list, which strictly shrinks each round. -/
noncomputable def pathfindMultipleLoop (env : Environment) (width_val : ℝ) :
    ℕ → Cell → List Cell → List Cell → Option (List Cell)
  | 0, _, ends, full_path => if ends = [] then some full_path else none
  | fuel + 1, cur_node, ends, full_path =>
      if ends = [] then some full_path
      else
        (nearestFold cur_node ends ⊤ none).bind fun cur_end_node =>
          (pathfind env cur_node cur_end_node width_val).bind fun cur_path =>
            pathfindMultipleLoop env width_val fuel cur_end_node
              (ends.filter fun e => e ≠ cur_end_node)
              (appendDedup full_path cur_path)

noncomputable def pathfind_multiple (env : Environment) (start : Cell)
    (end_nodes : List Cell) (width_val : ℝ) : Option (List Cell) :=
  pathfindMultipleLoop env width_val end_nodes.length start end_nodes []

/-- `Environment.get_path`: the inner `Option (List Cell)` is the Python
route value (`none` = the uninitialised `self._path`), the outer `Option`
an uncaught planner exception; the returned environment carries the cache
write. -/
noncomputable def Environment.get_path (env : Environment) (width_val : ℝ)
    (should_generate : Bool) : Option (Option (List Cell) × Environment) :=
  if env.start = none ∨ env.endCells = none then some (some [], env)
  else match env.endCells with
  | none => some (some [], env)
  | some es =>
      if es.length = 0 then some (some [], env)
      else if should_generate ∧ env.path = none then
        match env.start with
        | none => some (some [], env)
        | some s =>
            (pathfind_multiple env s es width_val).map fun p =>
              (some p, { env with path := some p })
      else some (env.path, env)

/-! ### Claim C7 — planning failure yields an empty route -/

/-- Claim C7 (confirmed): an unset start, an unset or empty goal set, or a
search that exhausts OPEN with the goal's parent still unset, all make
route generation return the empty route value rather than an error. -/
theorem C7_failures_empty :
    (∀ (env : Environment) (w : ℝ),
      env.start = none ∨ env.endCells = none ∨ env.endCells = some ([] : List Cell) →
      env.get_path w true = some (some [], env)) ∧
    (∀ (env : Environment) (s e : Cell) (w : ℝ) (st : SearchState),
      pathfindLoop env e w (env.size.1 * env.size.2 + 1) (initState env s) = some st →
      mat_get st.parent e none = none →
      pathfind env s e w = some []) := by
  constructor
  · intro env w h
    unfold Environment.get_path
    rcases h with h | h | h
    · rw [if_pos (Or.inl h)]
    · rw [if_pos (Or.inr h)]
    · by_cases hs : env.start = none
      · rw [if_pos (Or.inl hs)]
      · rw [if_neg (by rw [h]; simp [hs]), h]
        simp
  · intro env s e w st hloop hpar
    unfold pathfind
    simp only []
    rw [hloop, Option.some_bind, if_pos hpar]

/-- The 2×1 grid `[[EMPTY, OBSTACLE]]`: the goal `(1,0)` is an obstacle, so
search exhausts OPEN without setting its parent. -/
def envC7 : Environment :=
  { map := [[EnvType.EMPTY, EnvType.OBSTACLE]]
    rover := none, start := none, endCells := none
    start_dir := 0, end_dir := 0, path := none }

theorem coe_lt_top_sum (g a d : ℝ) : ((g : EReal) + (a : ℝ) + (d : ℝ)) < ⊤ := by
  rw [← EReal.coe_add, ← EReal.coe_add]
  exact EReal.coe_lt_top _

/-- The search on `envC7` from `(0,0)` towards `(1,0)` halts with an empty
OPEN list and the goal's parent unset. -/
theorem pathfindLoop_envC7 :
    pathfindLoop envC7 ((1:ℤ),(0:ℤ)) 0 (envC7.size.1 * envC7.size.2 + 1)
        (initState envC7 ((0:ℤ),(0:ℤ))) =
      some ⟨[], [((0:ℤ),(0:ℤ))], [[((0:ℝ) : EReal), ⊤]],
        [[some ((0:ℤ),(0:ℤ)), none]]⟩ := by
  have hini : initState envC7 ((0:ℤ),(0:ℤ)) =
      ⟨[((0:ℤ),(0:ℤ))], [], [[((0:ℝ) : EReal), ⊤]],
        [[some ((0:ℤ),(0:ℤ)), none]]⟩ := rfl
  have hfuel : envC7.size.1 * envC7.size.2 + 1 = 3 := rfl
  have hcost : _cost [[((0:ℝ) : EReal), ⊤]] ((0:ℤ),(0:ℤ)) ((1:ℤ),(0:ℤ)) < ⊤ := by
    unfold _cost
    simp only []
    rw [show mat_get [[((0:ℝ) : EReal), ⊤]] ((0:ℤ),(0:ℤ)) ⊤ = ((0:ℝ) : EReal) from rfl]
    exact coe_lt_top_sum _ _ _
  rw [hini, hfuel]
  show pathfindLoop envC7 ((1:ℤ),(0:ℤ)) 0 (2 + 1) _ = _
  rw [pathfindLoop]
  rw [if_neg (by simp)]
  have hpoll : _poll [((0:ℤ),(0:ℤ))] [[((0:ℝ) : EReal), ⊤]] ((1:ℤ),(0:ℤ)) =
      some (((0:ℤ),(0:ℤ)), []) := by
    unfold _poll pollFold
    rw [if_pos (by exact hcost)]
    rfl
  rw [hpoll, Option.some_bind]
  rw [if_neg (by decide : (((0:ℤ),(0:ℤ)) : Cell) ≠ ((1:ℤ),(0:ℤ)))]
  have hexp : expandNode envC7 0 ((0:ℤ),(0:ℤ)) []
      ⟨[((0:ℤ),(0:ℤ))], [], [[((0:ℝ) : EReal), ⊤]], [[some ((0:ℤ),(0:ℤ)), none]]⟩ =
      some ⟨[], [((0:ℤ),(0:ℤ))], [[((0:ℝ) : EReal), ⊤]],
        [[some ((0:ℤ),(0:ℤ)), none]]⟩ := by
    unfold expandNode
    rw [show _get_neighbours envC7 ((0:ℤ),(0:ℤ)) = [] from rfl]
    rfl
  rw [hexp, Option.some_bind]
  rw [pathfindLoop]
  rw [if_pos rfl]

/-- Witness for C7: an environment with no start set returns the empty
route, and on `envC7` (goal cell is an obstacle) the exhausted search makes
`pathfind` return the empty route. -/
theorem C7_witness :
    ((envC7.get_path 0 true) = some (some [], envC7)) ∧
    pathfind envC7 ((0:ℤ),(0:ℤ)) ((1:ℤ),(0:ℤ)) 0 = some [] := by
  constructor
  · exact C7_failures_empty.1 envC7 0 (Or.inl rfl)
  · exact C7_failures_empty.2 envC7 ((0:ℤ),(0:ℤ)) ((1:ℤ),(0:ℤ)) 0
      ⟨[], [((0:ℤ),(0:ℤ))], [[((0:ℝ) : EReal), ⊤]], [[some ((0:ℤ),(0:ℤ)), none]]⟩
      pathfindLoop_envC7 rfl

/-! ### Claim C8 — the route cache is only invalidated explicitly -/

/-- A 2×1 empty grid with start `(0,0)` and the single goal `(1,0)`. -/
def envE0 : Environment :=
  { map := [[EnvType.EMPTY, EnvType.EMPTY]]
    rover := none, start := some ((0:ℤ),(0:ℤ)), endCells := some [((1:ℤ),(0:ℤ))]
    start_dir := 0, end_dir := 0, path := none }

theorem inter_E :
    get_intersected_coordinates (0 : ℝ × ℝ) ((2:ℝ), (1:ℝ)) =
      [((0:ℤ),(0:ℤ)), ((1:ℤ),(0:ℤ)), ((0:ℤ),(0:ℤ))] := by
  unfold get_intersected_coordinates f_x f_y pytrunc intRange
  norm_num [List.range_succ, show (2 : ℤ).toNat = 2 from rfl]

theorem los_E :
    is_line_of_sight envE0 ((0:ℤ),(0:ℤ)) ((1:ℤ),(0:ℤ)) 0 = true := by
  unfold is_line_of_sight
  rw [losSamples_width_zero]
  simp only [Bool.not_eq_true']
  rw [List.any_eq_false]
  intro c hc
  rw [List.mem_bind] at hc
  obtain ⟨ray, _, hc⟩ := hc
  norm_num [inter_E] at hc
  rcases hc with hc | hc | hc <;> rw [hc] <;> decide

/-- The finite cost written for cell `(1,0)` during the search on `envE0`. -/
noncomputable def cE : EReal :=
  _cost [[((0:ℝ) : EReal), ⊤]] ((0:ℤ),(0:ℤ)) ((1:ℤ),(0:ℤ))

theorem _cost_coe_of (costs : List (List EReal)) (p1 p2 : Cell) (g : ℝ)
    (hg : mat_get costs p1 ⊤ = (g : EReal)) :
    ∃ r : ℝ, _cost costs p1 p2 = (r : EReal) := by
  unfold _cost
  simp only []
  rw [hg, ← EReal.coe_add, ← EReal.coe_add]
  exact ⟨_, rfl⟩

theorem cE_coe : ∃ r : ℝ, cE = (r : EReal) :=
  _cost_coe_of _ _ _ 0 rfl

theorem cE_lt_top : cE < ⊤ := by
  obtain ⟨r, hr⟩ := cE_coe
  rw [hr]
  exact EReal.coe_lt_top r

/-- The search on `envE0`: two expansions, ending with the goal popped and
its parent set to the start. -/
theorem pathfindLoop_envE0 :
    pathfindLoop envE0 ((1:ℤ),(0:ℤ)) 0 (envE0.size.1 * envE0.size.2 + 1)
        (initState envE0 ((0:ℤ),(0:ℤ))) =
      some ⟨[], [((0:ℤ),(0:ℤ))], [[((0:ℝ) : EReal), cE]],
        [[some ((0:ℤ),(0:ℤ)), some ((0:ℤ),(0:ℤ))]]⟩ := by
  have hini : initState envE0 ((0:ℤ),(0:ℤ)) =
      ⟨[((0:ℤ),(0:ℤ))], [], [[((0:ℝ) : EReal), ⊤]],
        [[some ((0:ℤ),(0:ℤ)), none]]⟩ := rfl
  have hcost : _cost [[((0:ℝ) : EReal), ⊤]] ((0:ℤ),(0:ℤ)) ((1:ℤ),(0:ℤ)) < ⊤ :=
    cE_lt_top
  rw [hini, show envE0.size.1 * envE0.size.2 + 1 = 2 + 1 from rfl]
  rw [pathfindLoop, if_neg (by simp)]
  have hpoll : _poll [((0:ℤ),(0:ℤ))] [[((0:ℝ) : EReal), ⊤]] ((1:ℤ),(0:ℤ)) =
      some (((0:ℤ),(0:ℤ)), []) := by
    unfold _poll pollFold
    rw [if_pos hcost]
    rfl
  rw [hpoll, Option.some_bind,
    if_neg (by decide : (((0:ℤ),(0:ℤ)) : Cell) ≠ ((1:ℤ),(0:ℤ)))]
  have hupd : _update_vertex envE0 [] [[((0:ℝ) : EReal), ⊤]]
      [[some ((0:ℤ),(0:ℤ)), none]] ((0:ℤ),(0:ℤ)) ((1:ℤ),(0:ℤ)) 0 =
      some ([((1:ℤ),(0:ℤ))], [[((0:ℝ) : EReal), cE]],
        [[some ((0:ℤ),(0:ℤ)), some ((0:ℤ),(0:ℤ))]]) := by
    unfold _update_vertex
    rw [show mat_get [[some ((0:ℤ),(0:ℤ)), none]] ((0:ℤ),(0:ℤ)) none =
      some ((0:ℤ),(0:ℤ)) from rfl]
    simp only [los_E, if_true]
    rw [show mat_get [[((0:ℝ) : EReal), ⊤]] ((1:ℤ),(0:ℤ)) ⊤ = ⊤ from rfl,
      if_pos hcost]
    rfl
  have hexp : expandNode envE0 0 ((0:ℤ),(0:ℤ)) []
      ⟨[((0:ℤ),(0:ℤ))], [], [[((0:ℝ) : EReal), ⊤]], [[some ((0:ℤ),(0:ℤ)), none]]⟩ =
      some ⟨[((1:ℤ),(0:ℤ))], [((0:ℤ),(0:ℤ))], [[((0:ℝ) : EReal), cE]],
        [[some ((0:ℤ),(0:ℤ)), some ((0:ℤ),(0:ℤ))]]⟩ := by
    unfold expandNode
    rw [show _get_neighbours envE0 ((0:ℤ),(0:ℤ)) = [((1:ℤ),(0:ℤ))] from rfl]
    simp only [List.foldl_cons, List.foldl_nil, Option.some_bind, List.nil_append]
    rw [if_neg (by decide : ¬(((1:ℤ),(0:ℤ)) : Cell) ∈ [(((0:ℤ),(0:ℤ)) : Cell)])]
    rw [hupd]
    rfl
  rw [hexp, Option.some_bind]
  have hcost2 : _cost [[((0:ℝ) : EReal), cE]] ((1:ℤ),(0:ℤ)) ((1:ℤ),(0:ℤ)) < ⊤ := by
    obtain ⟨r, hr⟩ := cE_coe
    unfold _cost
    rw [show mat_get [[((0:ℝ) : EReal), cE]] ((1:ℤ),(0:ℤ)) ⊤ = cE from rfl, hr]
    exact coe_lt_top_sum _ _ _
  rw [pathfindLoop, if_neg (by simp)]
  have hpoll2 : _poll [((1:ℤ),(0:ℤ))] [[((0:ℝ) : EReal), cE]] ((1:ℤ),(0:ℤ)) =
      some (((1:ℤ),(0:ℤ)), []) := by
    unfold _poll pollFold
    rw [if_pos hcost2]
    rfl
  rw [hpoll2, Option.some_bind, if_pos rfl]

/-- The full planner on `envE0` produces the two-cell route. -/
theorem pathfind_envE0 :
    pathfind envE0 ((0:ℤ),(0:ℤ)) ((1:ℤ),(0:ℤ)) 0 =
      some [((0:ℤ),(0:ℤ)), ((1:ℤ),(0:ℤ))] := by
  unfold pathfind
  simp only []
  rw [pathfindLoop_envE0, Option.some_bind]
  rw [if_neg (by
    rw [show mat_get [[some ((0:ℤ),(0:ℤ)), some ((0:ℤ),(0:ℤ))]] ((1:ℤ),(0:ℤ)) none =
      some ((0:ℤ),(0:ℤ)) from rfl]
    simp)]
  rfl

/-- Greedy stitching over the single goal reduces to the plain `pathfind`
leg. -/
theorem pathfind_multiple_envE0 :
    pathfind_multiple envE0 ((0:ℤ),(0:ℤ)) [((1:ℤ),(0:ℤ))] 0 =
      some [((0:ℤ),(0:ℤ)), ((1:ℤ),(0:ℤ))] := by
  have hnear : nearestFold ((0:ℤ),(0:ℤ)) [((1:ℤ),(0:ℤ))] ⊤ none =
      some ((1:ℤ),(0:ℤ)) := by
    unfold nearestFold
    rw [if_pos (EReal.coe_lt_top _)]
    rfl
  unfold pathfind_multiple
  rw [show ([((1:ℤ),(0:ℤ))] : List Cell).length = 0 + 1 from rfl, pathfindMultipleLoop,
    if_neg (by simp), hnear, Option.some_bind, pathfind_envE0, Option.some_bind]
  rw [pathfindMultipleLoop]
  rw [if_pos (by decide)]
  rfl

/-- The environment after `get_path` has stored the route on `envE0`. -/
def envE1 : Environment :=
  { envE0 with path := some [((0:ℤ),(0:ℤ)), ((1:ℤ),(0:ℤ))] }

/-- The first generating call on `envE0` returns the route and caches it. -/
theorem get_path_envE0 :
    envE0.get_path 0 true =
      some (some [((0:ℤ),(0:ℤ)), ((1:ℤ),(0:ℤ))], envE1) := by
  unfold Environment.get_path
  rw [if_neg (by simp [envE0])]
  simp only [show envE0.endCells = some [((1:ℤ),(0:ℤ))] from rfl,
    show envE0.start = some ((0:ℤ),(0:ℤ)) from rfl,
    show envE0.path = none from rfl]
  norm_num
  exact ⟨[((0:ℤ),(0:ℤ)), ((1:ℤ),(0:ℤ))], pathfind_multiple_envE0, rfl, rfl⟩

/-- Claim C8, as stated: once a `get_path` call has left a stored route in
the cache, every later generating `get_path` call returns exactly that
route with no further state change, regardless of an intervening
`set_start_end` mutation, until `reset_path`. -/
def C8_claim : Prop :=
  ∀ (env env' : Environment) (w w' : ℝ) (rt : Option (List Cell)) (p : List Cell),
    env.get_path w true = some (rt, env') →
    env'.path = some p →
    ∀ (s : Option Cell) (es : Option (List Cell)),
      (env'.set_start_end s es).get_path w' true =
        some (some p, env'.set_start_end s es)

/-- Counterexample to C8: after caching the route `[(0,0),(1,0)]` on the
2×1 grid, calling `set_start_end` with an empty goal list makes the next
`get_path` return the empty route instead of the cached one (the cache
itself is retained but bypassed by the degenerate-input early return). -/
theorem C8_counterexample : ¬ C8_claim := by
  intro h
  have h2 := h envE0 envE1 0 0 (some [((0:ℤ),(0:ℤ)), ((1:ℤ),(0:ℤ))])
    [((0:ℤ),(0:ℤ)), ((1:ℤ),(0:ℤ))] get_path_envE0 rfl
    (some ((0:ℤ),(0:ℤ))) (some [])
  have h3 : (envE1.set_start_end (some ((0:ℤ),(0:ℤ))) (some [])).get_path 0 true =
      some (some [], envE1.set_start_end (some ((0:ℤ),(0:ℤ))) (some [])) := by
    unfold Environment.get_path
    rw [if_neg (by simp [Environment.set_start_end])]
    simp only [show (envE1.set_start_end (some ((0:ℤ),(0:ℤ))) (some [])).endCells =
      some ([] : List Cell) from rfl]
    norm_num
  rw [h3] at h2
  simp only [Option.some_inj, Prod.mk.injEq] at h2
  exact absurd h2.1 (by simp)

/-- Amended C8: while start and a non-empty goal list remain set, a cached
route is returned as-is with no planner call and no state change; neither
`set_tile` nor `set_start_end` touches the cache, and only `reset_path`
clears it.  (Calls made while start/goals are unset or the goal list is
empty return the empty route without consulting or clearing the cache, as
the counterexample shows.) -/
theorem C8_amended :
    (∀ (env : Environment) (w : ℝ) (gen : Bool) (p : List Cell) (s : Cell)
        (es : List Cell),
      env.path = some p → env.start = some s → env.endCells = some es →
      es ≠ [] → env.get_path w gen = some (some p, env)) ∧
    (∀ (env env' : Environment) (x y : ℤ) (t : EnvType),
      env.set_tile x y t = some env' → env'.path = env.path) ∧
    (∀ (env : Environment) (s : Option Cell) (es : Option (List Cell)),
      (env.set_start_end s es).path = env.path) ∧
    (∀ env : Environment, env.reset_path.path = none) := by
  refine ⟨?_, ?_, fun _ _ _ => rfl, fun _ => rfl⟩
  · intro env w gen p s es hp hs hes hne
    unfold Environment.get_path
    rw [if_neg (by simp [hs, hes])]
    simp only [hes]
    rw [if_neg (fun hc => hne (List.length_eq_zero.mp hc))]
    rw [if_neg (by simp [hp]), hp]
  · intro env env' x y t h
    unfold Environment.set_tile at h
    rcases hrow : pyGet env.map y with _ | row
    · rw [hrow] at h; simp at h
    · rw [hrow, Option.some_bind] at h
      rcases hrow2 : pySet row x t with _ | row2
      · rw [hrow2] at h; simp at h
      · rw [hrow2, Option.some_bind] at h
        rcases hmap : pySet env.map y row2 with _ | map'
        · rw [hmap] at h; simp at h
        · rw [hmap] at h
          simp only [Option.map_some', Option.some_inj] at h
          rw [← h]

/-- Witness for the amended C8: on the cached environment `envE1`, a
generating `get_path` returns the cached route unchanged. -/
theorem C8_amended_witness :
    envE1.path = some [((0:ℤ),(0:ℤ)), ((1:ℤ),(0:ℤ))] ∧
    envE1.get_path 0 true =
      some (some [((0:ℤ),(0:ℤ)), ((1:ℤ),(0:ℤ))], envE1) := by
  refine ⟨rfl, ?_⟩
  exact C8_amended.1 envE1 0 true _ ((0:ℤ),(0:ℤ)) [((1:ℤ),(0:ℤ))] rfl rfl rfl
    (by decide)

/-! ## rover_simulation.py — the hypothesis-test critical value -/

/-- `normal` from rover_simulation.py: the Gaussian density. -/
noncomputable def normal (mean stdev x : ℝ) : ℝ :=
  (1 / (stdev * Real.sqrt (2 * Real.pi))) *
    Real.exp (-0.5 * ((x - mean) / stdev) ^ 2)

/-- `binomial_approx`: normal approximation of the binomial mass at `x`. -/
noncomputable def binomial_approx (trial_num : ℕ) (probability : ℝ) (x : ℝ) : ℝ :=
  normal (trial_num * probability)
    (Real.sqrt (trial_num * probability * (1 - probability))) x

/-- `binomial_cdf`: `P(X < x)` as the sum of the approximated masses over
`range(x)` (empty for `x ≤ 0`, as in Python). -/
noncomputable def binomial_cdf (trial_num : ℕ) (probability : ℝ) (x : ℤ) : ℝ :=
  ((List.range x.toNat).map fun i : ℕ =>
    binomial_approx trial_num probability (i : ℝ)).sum

/-- The `while cur_p < significance_value` loop of `get_critical_value`,
fuel-indexed (`none` models non-termination). -/
noncomputable def gcvLoop (trial_num : ℕ) (probability significance_value : ℝ) :
    ℕ → ℝ → ℤ → Option ℤ
  | 0, _, _ => none
  | fuel + 1, cur_p, cur_x =>
      if cur_p < significance_value then
        gcvLoop trial_num probability significance_value fuel
          (binomial_cdf trial_num probability (cur_x + 1)) (cur_x + 1)
      else some cur_x

/-- `get_critical_value` from rover_simulation.py. -/
noncomputable def get_critical_value (trial_num : ℕ)
    (probability significance_value : ℝ) (fuel : ℕ) : Option ℤ :=
  gcvLoop trial_num probability significance_value fuel 0 (-1)

/-! ### Claim C1 — what `get_critical_value` returns -/

theorem normal_nonneg (mean stdev x : ℝ) (h : 0 ≤ stdev) :
    0 ≤ normal mean stdev x := by
  unfold normal
  positivity

/-- The binomial stdev at `N = 1, p = 1/2` is exactly `1/2`. -/
theorem stdev_half : Real.sqrt ((1 : ℕ) * (1/2) * (1 - 1/2)) = 1/2 := by
  rw [show ((1 : ℕ) : ℝ) * (1/2) * (1 - 1/2) = (1/2 : ℝ)^2 by norm_num,
    Real.sqrt_sq (by norm_num : (0:ℝ) ≤ 1/2)]

theorem sqrt_two_pi_le_three : Real.sqrt (2 * Real.pi) ≤ 3 := by
  have hπ := Real.pi_le_four
  have h9 : (2:ℝ) * Real.pi ≤ 9 := by nlinarith [Real.pi_pos]
  calc Real.sqrt (2 * Real.pi) ≤ Real.sqrt 9 := Real.sqrt_le_sqrt h9
    _ = 3 := by
        rw [show (9:ℝ) = 3^2 by norm_num, Real.sqrt_sq (by norm_num : (0:ℝ) ≤ 3)]

/-- The normal-approximated `P(X < 1)` at `N = 1, p = 1/2` is at least
`1/3` (hence far above a significance level of `1/20`). -/
theorem cdf_one_ge_third : (1/3 : ℝ) ≤ binomial_cdf 1 (1/2) 1 := by
  have hsum : binomial_cdf 1 (1/2) 1 =
      binomial_approx 1 (1/2) ((0 : ℕ) : ℝ) := by
    unfold binomial_cdf
    rw [show (1:ℤ).toNat = 1 from rfl, show List.range 1 = [0] from rfl,
      List.map_singleton, List.sum_singleton]
  rw [hsum]
  unfold binomial_approx normal
  rw [stdev_half]
  have hexp : (1/2 : ℝ) ≤
      Real.exp (-0.5 * ((((0:ℕ):ℝ) - (1:ℕ) * (1/2)) / (1/2)) ^ 2) := by
    have harg : (-0.5 : ℝ) * ((((0:ℕ):ℝ) - (1:ℕ) * (1/2)) / (1/2)) ^ 2 = -(1/2) := by
      norm_num
    rw [harg]
    have h1 := Real.add_one_le_exp (-(1/2) : ℝ)
    linarith
  have hs_pos : 0 < Real.sqrt (2 * Real.pi) :=
    Real.sqrt_pos.mpr (by positivity)
  have hcoef : (2/3 : ℝ) ≤ 1 / (1/2 * Real.sqrt (2 * Real.pi)) := by
    have heq : 1 / (1/2 * Real.sqrt (2 * Real.pi)) = 2 / Real.sqrt (2 * Real.pi) := by
      field_simp
    rw [heq]
    rw [div_le_div_iff (by norm_num) hs_pos]
    nlinarith [sqrt_two_pi_le_three]
  have hexp_pos : 0 < Real.exp (-0.5 * ((((0:ℕ):ℝ) - (1:ℕ) * (1/2)) / (1/2)) ^ 2) :=
    Real.exp_pos _
  nlinarith [hcoef, hexp, hs_pos, hexp_pos]

theorem cdf_zero_eq : binomial_cdf 1 (1/2) 0 = 0 := by
  unfold binomial_cdf
  simp

/-- Monotonicity upwards from 1: every later CDF value dominates `P(X < 1)`
because all added masses are nonnegative. -/
theorem cdf_ge_of_one_le (x : ℤ) (hx : 1 ≤ x) :
    binomial_cdf 1 (1/2) 1 ≤ binomial_cdf 1 (1/2) x := by
  have hterm : binomial_cdf 1 (1/2) 1 = binomial_approx 1 (1/2) ((0:ℕ):ℝ) := by
    unfold binomial_cdf
    rw [show (1:ℤ).toNat = 1 from rfl, show List.range 1 = [0] from rfl,
      List.map_singleton, List.sum_singleton]
  rw [hterm]
  unfold binomial_cdf
  apply List.single_le_sum
  · intro r hr
    simp only [List.mem_map] at hr
    obtain ⟨i, _, hi⟩ := hr
    rw [← hi]
    unfold binomial_approx
    exact normal_nonneg _ _ _ (Real.sqrt_nonneg _)
  · exact List.mem_map.mpr ⟨0, List.mem_range.mpr (by omega), rfl⟩

/-- Claim C1, as stated: whatever the loop returns is the largest `x` with
normal-approximated `P(X < x) ≤ α`. -/
def C1_claim : Prop :=
  ∀ (N : ℕ) (p a : ℝ) (fuel : ℕ) (c : ℤ),
    get_critical_value N p a fuel = some c →
    IsGreatest {x : ℤ | binomial_cdf N p x ≤ a} c

/-- Evaluation at the failing input `N = 1, p = 1/2, α = 1/20`: the code
returns `1`, the smallest `x` whose CDF reaches `α` — but the largest `x`
with CDF at most `α` is `0`, because `P(X < 1) ≈ 0.484 > 1/20`.  This
matches neither the claim nor the function's own docstring
(`x = max v (P(X < v) <= s)`): the loop stops one step late. -/
theorem C1_code_eval :
    get_critical_value 1 (1/2) (1/20) 3 = some 1 ∧
    IsGreatest {x : ℤ | binomial_cdf 1 (1/2) x ≤ 1/20} 0 ∧
    ¬ IsGreatest {x : ℤ | binomial_cdf 1 (1/2) x ≤ 1/20} 1 := by
  have hone : (1/20 : ℝ) < binomial_cdf 1 (1/2) 1 := by
    have := cdf_one_ge_third
    linarith
  have hgreat : IsGreatest {x : ℤ | binomial_cdf 1 (1/2) x ≤ 1/20} 0 := by
    constructor
    · show binomial_cdf 1 (1/2) 0 ≤ 1/20
      rw [cdf_zero_eq]
      norm_num
    · intro x hx
      by_contra hlt
      push_neg at hlt
      have h1x : (1:ℤ) ≤ x := by omega
      have := cdf_ge_of_one_le x h1x
      have hxle : binomial_cdf 1 (1/2) x ≤ 1/20 := hx
      linarith
  refine ⟨?_, hgreat, ?_⟩
  · unfold get_critical_value gcvLoop
    rw [if_pos (by norm_num : (0:ℝ) < 1/20)]
    rw [show (-1 : ℤ) + 1 = 0 from rfl]
    unfold gcvLoop
    rw [if_pos (by rw [cdf_zero_eq]; norm_num)]
    rw [show (0 : ℤ) + 1 = 1 from rfl]
    unfold gcvLoop
    rw [if_neg (not_lt.mpr (le_of_lt hone))]
  · intro hg
    have h01 : (1 : ℤ) ≤ 0 := hgreat.2 hg.1
    omega

/-! ## rover_commands.py — translating a route into commands -/

/-- The per-waypoint body of `create_rover_instructions_from_path`,
folded over `path[1:]` while threading the current cell, heading and
emitted command list. -/
noncomputable def createInstrLoop (end_pos : List Cell) :
    List Cell → Cell → ℝ → List Cmd → List Cmd × ℝ
  | [], _, cur_direction, cmds => (cmds, cur_direction)
  | p :: rest, cur_pos, cur_direction, cmds =>
      let dx : ℤ := p.1 - cur_pos.1
      let dy : ℤ := p.2 - cur_pos.2
      let vector_1 := convert_angle_to_2d_vector cur_direction
      let vector_2 : ℝ × ℝ := ((dx : ℝ), (dy : ℝ))
      let new_angle0 := arctan2 (dy : ℝ) (dx : ℝ)
      let d_angle := get_angle_from_vectors vector_1 vector_2
      let new_angle :=
        if d_angle ≠ 0 then
          let na1 := if Real.pi < new_angle0 then new_angle0 - 2 * Real.pi
                     else new_angle0
          if na1 < -Real.pi then na1 + 2 * Real.pi else na1
        else new_angle0
      let cmds1 := if d_angle ≠ 0 then
          cmds ++ [(RoverCommandType.ROTATE, CmdVal.num new_angle, 0.2)]
        else cmds
      let distance := Real.sqrt ((dx : ℝ) * dx + (dy : ℝ) * dy) * METERS_PER_TILE
      let time := distance / ROVER_MAX_SPEED
      let cmds2 := cmds1 ++ [(RoverCommandType.MOVE, CmdVal.num distance, time)]
      let cmds3 :=
        if p ∈ end_pos then
          let angle := if end_pos.indexOf p = end_pos.length - 1 then Real.pi / 2
                       else -(Real.pi / 2)
          cmds2 ++ [(RoverCommandType.ROTATE, CmdVal.num angle, 0.2),
                    (RoverCommandType.MINE, CmdVal.num 0, 0.1),
                    (RoverCommandType.ROTATE, CmdVal.num new_angle, 0.2)]
        else cmds2
      createInstrLoop end_pos rest p new_angle cmds3

/-- `create_rover_instructions_from_path` from rover_commands.py: `none`
models the `IndexError` on an empty route and the `TypeError` of testing
membership in an unset goal list (only reached when the loop runs). -/
noncomputable def create_rover_instructions_from_path (env : Environment)
    (path : List Cell) (rover_direction rover_final_direction : ℝ) :
    Option (List Cmd) :=
  let finish : List Cmd × ℝ → List Cmd := fun res =>
    let vector_1 := convert_angle_to_2d_vector res.2
    let vector_2 := convert_angle_to_2d_vector rover_final_direction
    let d_angle := get_angle_from_vectors vector_1 vector_2
    if d_angle ≠ 0 then
      res.1 ++ [(RoverCommandType.ROTATE, CmdVal.num (-d_angle), 0.2)]
    else res.1
  match path with
  | [] => none
  | p0 :: rest =>
      match rest, env.endCells with
      | [], _ => some (finish ([], rover_direction))
      | _ :: _, none => none
      | _ :: _, some es => some (finish (createInstrLoop es rest p0 rover_direction []))

/-- The straight `N`-cell route along the positive x axis. -/
def straightPath (x0 y0 : ℤ) (n : ℕ) : List Cell :=
  (List.range n).map fun i : ℕ => ((x0 + (i : ℤ), y0) : Cell)

/-- The command queue built by the trial loop of rover_simulation.py
(`for cmd in rover_cmds: rover_command.add_command(...)`). -/
noncomputable def buildQueue (cmds : List Cmd) : RoverCommands :=
  cmds.foldl (fun rc c => rc.add_command c.1 c.2.1 c.2.2) RoverCommands.init

/-- The total duration of a command list. -/
noncomputable def totalDuration (cmds : List Cmd) : ℝ :=
  (cmds.map fun c => c.2.2).sum

/-! ### Claim C9 — tick count of a straight translated route -/

theorem convert_zero : convert_angle_to_2d_vector 0 = ((1 : ℝ), (0 : ℝ)) := by
  unfold convert_angle_to_2d_vector
  rw [Real.cos_zero, Real.sin_zero]
  norm_num

theorem angle_vec_straight :
    get_angle_from_vectors ((1 : ℝ), (0 : ℝ)) ((1 : ℝ), (0 : ℝ)) = 0 := by
  unfold get_angle_from_vectors arctan2
  norm_num

/-- The Move command emitted for one straight unit segment. -/
noncomputable def unitMove : Cmd :=
  (RoverCommandType.MOVE, CmdVal.num METERS_PER_TILE,
    METERS_PER_TILE / ROVER_MAX_SPEED)

theorem createInstrLoop_straight (es : List Cell) :
    ∀ (n : ℕ) (x0 y0 : ℤ) (cmds : List Cmd),
      (∀ i : ℕ, i < n → ((x0 + 1 + (i : ℤ), y0) : Cell) ∉ es) →
      createInstrLoop es ((List.range n).map fun i : ℕ =>
            ((x0 + 1 + (i : ℤ), y0) : Cell))
          (x0, y0) 0 cmds =
        (cmds ++ List.replicate n unitMove, 0) := by
  intro n
  induction n with
  | zero =>
      intro x0 y0 cmds _
      simp [createInstrLoop]
  | succ n ih =>
      intro x0 y0 cmds h
      rw [List.range_succ_eq_map, List.map_cons, List.map_map]
      have hhead : (x0 + 1 + ((0 : ℕ) : ℤ), y0) = ((x0 + 1 : ℤ), y0) := by
        norm_num
      rw [hhead]
      have htail : (List.range n).map ((fun i : ℕ => ((x0 + 1 + (i : ℤ), y0) : Cell)) ∘
          Nat.succ) = (List.range n).map fun i : ℕ => ((x0 + 1) + 1 + (i : ℤ), y0) := by
        apply List.map_congr_left
        intro i _
        show ((x0 + 1 + ((i + 1 : ℕ) : ℤ), y0) : Cell) = _
        have : (x0 + 1 + ((i + 1 : ℕ) : ℤ)) = (x0 + 1) + 1 + (i : ℤ) := by
          push_cast
          ring
        rw [this]
      rw [htail]
      show createInstrLoop es (((x0 + 1 : ℤ), y0) :: _) (x0, y0) 0 cmds = _
      rw [createInstrLoop]
      have hdx : ((x0 + 1 - x0 : ℤ) : ℝ) = 1 := by push_cast; ring
      have hdy : ((y0 - y0 : ℤ) : ℝ) = 0 := by push_cast; ring
      simp only [hdx, hdy, convert_zero, angle_vec_straight, ne_eq,
        not_true_eq_false, if_false, ite_false]
      have hdist : Real.sqrt ((1 : ℝ) * 1 + 0 * 0) * METERS_PER_TILE =
          METERS_PER_TILE := by
        norm_num
      have hmem : ((x0 + 1 : ℤ), y0) ∉ es := by
        have h0 := h 0 (by omega)
        simpa using h0
      rw [hdist, if_neg hmem]
      have harc : arctan2 0 1 = 0 := by
        unfold arctan2
        norm_num
      rw [harc]
      have hrec := ih (x0 + 1) y0 (cmds ++ [unitMove]) (fun i hi => by
        have hnext := h (i + 1) (by omega)
        have heq : (x0 + 1 + ((i + 1 : ℕ) : ℤ)) = (x0 + 1) + 1 + (i : ℤ) := by
          push_cast
          ring
        rw [heq] at hnext
        exact hnext)
      rw [show (cmds ++ [(RoverCommandType.MOVE, CmdVal.num METERS_PER_TILE,
          METERS_PER_TILE / ROVER_MAX_SPEED)]) = cmds ++ [unitMove] from rfl]
      rw [hrec, List.append_assoc]
      rw [show ([unitMove] ++ List.replicate n unitMove) =
        List.replicate (n + 1) unitMove from rfl]

/-- Translating a straight `n+2`-cell route with aligned start/end headings
emits exactly `n+1` Move commands and nothing else. -/
theorem create_straight (env : Environment) (es : List Cell) (n : ℕ) (x0 y0 : ℤ)
    (henv : env.endCells = some es)
    (h : ∀ i : ℕ, i < n + 1 → ((x0 + 1 + (i : ℤ), y0) : Cell) ∉ es) :
    create_rover_instructions_from_path env (straightPath x0 y0 (n + 2)) 0 0 =
      some (List.replicate (n + 1) unitMove) := by
  have hsplit : straightPath x0 y0 (n + 2) = ((x0, y0) : Cell) ::
      ((List.range (n + 1)).map fun i : ℕ => ((x0 + 1 + (i : ℤ), y0) : Cell)) := by
    unfold straightPath
    rw [List.range_succ_eq_map, List.map_cons, List.map_map]
    congr 1
    · norm_num
    · apply List.map_congr_left
      intro i _
      show ((x0 + ((i + 1 : ℕ) : ℤ), y0) : Cell) = _
      have hxi : (x0 + ((i + 1 : ℕ) : ℤ)) = x0 + 1 + (i : ℤ) := by
        push_cast
        ring
      rw [hxi]
  obtain ⟨c, l', hl⟩ : ∃ c l',
      ((List.range (n + 1)).map fun i : ℕ => ((x0 + 1 + (i : ℤ), y0) : Cell)) =
        c :: l' := by
    rw [List.range_succ_eq_map, List.map_cons]
    exact ⟨_, _, rfl⟩
  rw [hsplit, hl]
  unfold create_rover_instructions_from_path
  simp only [henv]
  rw [← hl, createInstrLoop_straight es (n + 1) x0 y0 [] h]
  simp only [List.nil_append, convert_zero, angle_vec_straight, ne_eq,
    not_true_eq_false, if_false, ite_false]

theorem buildQueue_replicate (m : ℕ) (d T : ℝ) :
    buildQueue (List.replicate m (RoverCommandType.MOVE, CmdVal.num d, T)) =
      ⟨List.replicate m (moveCmd (d * TIME_BETWEEN_MOVEMENTS / T) T), none⟩ := by
  have aux : ∀ (k : ℕ) (q : List Cmd),
      List.foldl (fun rc c => rc.add_command c.1 c.2.1 c.2.2)
        (⟨q, none⟩ : RoverCommands)
        (List.replicate k (RoverCommandType.MOVE, CmdVal.num d, T)) =
      ⟨q ++ List.replicate k (moveCmd (d * TIME_BETWEEN_MOVEMENTS / T) T), none⟩ := by
    intro k
    induction k with
    | zero =>
        intro q
        simp
    | succ k ih =>
        intro q
        rw [List.replicate_succ, List.foldl_cons]
        rw [show ((⟨q, none⟩ : RoverCommands).add_command RoverCommandType.MOVE
            (CmdVal.num d) T) =
          (⟨q ++ [moveCmd (d * TIME_BETWEEN_MOVEMENTS / T) T], none⟩ : RoverCommands)
          from by rw [add_command_move]]
        rw [ih, List.replicate_succ, List.append_assoc]
        rfl
  unfold buildQueue
  exact aux m []

theorem totalDuration_replicate (m : ℕ) :
    totalDuration (List.replicate m unitMove) =
      (m : ℝ) * (METERS_PER_TILE / ROVER_MAX_SPEED) := by
  unfold totalDuration
  rw [List.map_replicate, List.sum_replicate, nsmul_eq_mul]
  rfl

/-- Claim C9 (confirmed): for a queue built solely by translating a straight
`n+2`-cell route with zero turns (whose translation is Move commands only),
the number of executor update calls from the first update until `is_empty`
is within one tick of the total Move duration divided by the tick period. -/
theorem C9_straight_route_ticks (n : ℕ) (x0 y0 : ℤ) (env : Environment)
    (es : List Cell) (f : ℕ)
    (henv : env.endCells = some es)
    (hdisj : ∀ i : ℕ, i < n + 1 → ((x0 + 1 + (i : ℤ), y0) : Cell) ∉ es) :
    ∃ (cmds : List Cmd) (ticks : ℕ) (r' : Rover),
      create_rover_instructions_from_path env (straightPath x0 y0 (n + 2)) 0 0 =
        some cmds ∧
      (∀ c ∈ cmds, c.1 = RoverCommandType.MOVE) ∧
      run_to_empty (f + ((n + 1) * (9 + 2) + 1)) (buildQueue cmds)
        (Rover.mk 0 0 0 0) = some (ticks, r') ∧
      |(ticks : ℝ) - totalDuration cmds / TIME_BETWEEN_MOVEMENTS| ≤ 1 := by
  have hT : METERS_PER_TILE / ROVER_MAX_SPEED =
      ((((9 : ℕ) + 1 : ℕ)) : ℝ) * TIME_BETWEEN_MOVEMENTS := by
    norm_num [METERS_PER_TILE, ROVER_MAX_SPEED, TIME_BETWEEN_MOVEMENTS]
  have hq : buildQueue (List.replicate (n + 1) unitMove) =
      ⟨List.replicate (n + 1) (moveCmd
        (METERS_PER_TILE * TIME_BETWEEN_MOVEMENTS /
          (((((9:ℕ) + 1 : ℕ)) : ℝ) * TIME_BETWEEN_MOVEMENTS))
        (((((9:ℕ) + 1 : ℕ)) : ℝ) * TIME_BETWEEN_MOVEMENTS)), none⟩ := by
    rw [show List.replicate (n + 1) unitMove =
      List.replicate (n + 1) (RoverCommandType.MOVE, CmdVal.num METERS_PER_TILE,
        METERS_PER_TILE / ROVER_MAX_SPEED) from rfl]
    rw [buildQueue_replicate (n + 1) METERS_PER_TILE (METERS_PER_TILE / ROVER_MAX_SPEED)]
    rw [hT]
  have hrun := run_queue_moves_start 9 n f
    (METERS_PER_TILE * TIME_BETWEEN_MOVEMENTS /
      (((((9:ℕ) + 1 : ℕ)) : ℝ) * TIME_BETWEEN_MOVEMENTS)) 0 0
  refine ⟨List.replicate (n + 1) unitMove, (n + 1) * (9 + 1) + 1, _,
    create_straight env es n x0 y0 henv hdisj, ?_, by rw [hq]; exact hrun, ?_⟩
  · intro c hc
    rw [List.eq_of_mem_replicate hc]
    rfl
  · rw [totalDuration_replicate (n + 1)]
    have hval : (((n + 1) * (9 + 1) + 1 : ℕ) : ℝ) -
        ((n + 1 : ℕ) : ℝ) * (METERS_PER_TILE / ROVER_MAX_SPEED) /
          TIME_BETWEEN_MOVEMENTS = 1 := by
      rw [hT]
      have hd : TIME_BETWEEN_MOVEMENTS ≠ 0 := ne_of_gt TBM_pos
      field_simp
      ring
    rw [hval]
    norm_num

/-- A tiny environment whose goal list avoids the straight route. -/
def envC9 : Environment :=
  { map := [[EnvType.EMPTY]]
    rover := none, start := none, endCells := some [((99:ℤ),(99:ℤ))]
    start_dir := 0, end_dir := 0, path := none }

/-- Witness for C9 at a concrete 2-cell route on `envC9`. -/
theorem C9_witness :
    envC9.endCells = some [((99:ℤ),(99:ℤ))] ∧
    (∃ (cmds : List Cmd) (ticks : ℕ) (r' : Rover),
      create_rover_instructions_from_path envC9 (straightPath 0 0 (0 + 2)) 0 0 =
        some cmds ∧
      (∀ c ∈ cmds, c.1 = RoverCommandType.MOVE) ∧
      run_to_empty (0 + ((0 + 1) * (9 + 2) + 1)) (buildQueue cmds)
        (Rover.mk 0 0 0 0) = some (ticks, r') ∧
      |(ticks : ℝ) - totalDuration cmds / TIME_BETWEEN_MOVEMENTS| ≤ 1) := by
  refine ⟨rfl, C9_straight_route_ticks 0 0 0 envC9 [((99:ℤ),(99:ℤ))] 0 rfl ?_⟩
  intro i hi
  have hi0 : i = 0 := by omega
  subst hi0
  decide

end ControlCentre
